import Mathlib

/-!
# CV submission cooldown tracker: a shallow embedding and its verified properties

The development follows the server sources:

* `server/utils/dateHelpers.js`   : `daysBetween`, `daysUntilNextSubmission`,
  `canSubmitCV`, `getNextSubmissionDate`;
* `server/models/companyModel.js` : `findCompany`, `createCompany`,
  `getOrCreateCompany`, `getLatestCVSubmission`, `createCVSubmission`,
  `deleteCompanyById`, `seedCompanies`, `getAllCompaniesWithSubmissions`;
* `server/controllers/cvController.js` : `checkCVEligibility`, `saveCVSubmission`,
  `getAllCompanies`, `seedInitialCompanies`;
* `server/routes/cvRoutes.js` : the queued routes and the names they import
  from the controller.

Modelling conventions.

* An instant is its ECMAScript time value, an integer number of UTC
  milliseconds (`Int`).  The time line is unbounded: `TimeClip` (the bound of
  8.64e15 ms on either side of the epoch) is the identity on every value used.
* A JavaScript number produced by the date helpers is an integer or `NaN`
  (`JsNum`).  The helpers are embedded in exact integer arithmetic;
  `daysBetweenDouble` is the computation of `daysBetween` in doubles, which
  agrees with it for instants at most `2 ^ 53` ms apart.
* Every evaluation of `new Date()` reads the system clock.  The clock is a
  sequence of readings `clock : Nat → Int`; the world carries the index of the
  next reading (`tick`), which each evaluation of `new Date()` advances by one.
* The relational store is two tables held as lists in insertion order, with a
  sequence per table for the store-assigned `id` column.
-/


namespace CvLookup

/-! ## JavaScript values used by the date helpers -/

/-- A JavaScript number as produced by the date helpers: an integer or `NaN`. -/
inductive JsNum where
  | nan
  | num (n : Int)
  deriving DecidableEq, Repr

/-- What a caller passes in a date position: `undefined` (the value of
`latestSubmission?.submitted_at` when there is no row), `null`, or a value
denoting a valid instant (an ISO-8601 string read from the store, or a `Date`). -/
inductive DateArg where
  | undefined
  | null
  | instant (ms : Int)
  deriving DecidableEq, Repr

/-- JavaScript `!x` on a date argument: `undefined` and `null` are falsy, a
non-empty date string or a `Date` object is truthy. -/
def DateArg.falsy : DateArg → Bool
  | .undefined => true
  | .null => true
  | .instant _ => false

/-- Time value of `new Date(x)`: `new Date(undefined)` is an invalid date
(`NaN`), `new Date(null)` is the epoch, otherwise the instant denoted. -/
def newDate : DateArg → JsNum
  | .undefined => .nan
  | .null => .num 0
  | .instant ms => .num ms

/-- `Math.max(0, x)`: `NaN` when `x` is `NaN`. -/
def mathMax0 : JsNum → JsNum
  | .nan => .nan
  | .num n => .num (max 0 n)

/-- `x >= c` for a JavaScript number `x` and an integer `c`: false on `NaN`. -/
def JsNum.ge (x : JsNum) (c : Int) : Bool :=
  match x with
  | .nan => false
  | .num n => decide (c ≤ n)

/-- `c - x`. -/
def JsNum.rsub (c : Int) : JsNum → JsNum
  | .nan => .nan
  | .num n => .num (c - n)

/-- `x == 0` (equivalently `x === 0`) on a JavaScript number: false on `NaN`. -/
def JsNum.isZero : JsNum → Bool
  | .nan => false
  | .num n => decide (n = 0)

/-! ## ECMAScript date arithmetic used by `getDate` and `setDate` -/

/-- Milliseconds in a day: `24 * 60 * 60 * 1000`. -/
def oneDay : Int := 24 * 60 * 60 * 1000

/-- ECMAScript `Day(t) = floor(t / msPerDay)`. -/
def Day (t : Int) : Int := t / oneDay

/-- ECMAScript `TimeWithinDay(t) = t modulo msPerDay`. -/
def TimeWithinDay (t : Int) : Int := t % oneDay

/-- ECMAScript `DayFromYear(y)`. -/
def DayFromYear (y : Int) : Int :=
  365 * (y - 1970) + (y - 1969) / 4 - (y - 1901) / 100 + (y - 1601) / 400

/-- ECMAScript `DaysInYear(y)`. -/
def DaysInYear (y : Int) : Int :=
  if y % 4 ≠ 0 then 365
  else if y % 100 ≠ 0 then 366
  else if y % 400 ≠ 0 then 365
  else 366

/-- Search used by `YearFromTime`: move the candidate year toward the one
whose first day is at or before day `d` and whose successor starts after it. -/
def yearAdjust : Nat → Int → Int → Int
  | 0, _, y => y
  | n + 1, d, y =>
    if d < DayFromYear y then yearAdjust n d (y - 1)
    else if DayFromYear (y + 1) ≤ d then yearAdjust n d (y + 1)
    else y

/-- ECMAScript `YearFromTime(t)`: the largest year `y` with
`TimeFromYear(y) ≤ t`, found from the 400-year-cycle estimate. -/
def YearFromTime (t : Int) : Int :=
  yearAdjust 4 (Day t) (1970 + Day t * 400 / 146097)

/-- ECMAScript `InLeapYear(t)`: 1 in a leap year, else 0. -/
def InLeapYear (t : Int) : Int :=
  if DaysInYear (YearFromTime t) = 366 then 1 else 0

/-- ECMAScript `DayWithinYear(t)`. -/
def DayWithinYear (t : Int) : Int := Day t - DayFromYear (YearFromTime t)

/-- Day number within the year on which month `m` (0 = January) starts. -/
def monthStart (leap : Int) : Nat → Int
  | 0 => 0
  | 1 => 31
  | 2 => 59 + leap
  | 3 => 90 + leap
  | 4 => 120 + leap
  | 5 => 151 + leap
  | 6 => 181 + leap
  | 7 => 212 + leap
  | 8 => 243 + leap
  | 9 => 273 + leap
  | 10 => 304 + leap
  | _ => 334 + leap

/-- The month (0 = January) containing day `d` of a year, `l` being 1 in a
leap year and 0 otherwise: the table of ECMAScript `MonthFromTime`. -/
def monthOfDay (d l : Int) : Nat :=
  if d < 31 then 0
  else if d < 59 + l then 1
  else if d < 90 + l then 2
  else if d < 120 + l then 3
  else if d < 151 + l then 4
  else if d < 181 + l then 5
  else if d < 212 + l then 6
  else if d < 243 + l then 7
  else if d < 273 + l then 8
  else if d < 304 + l then 9
  else if d < 334 + l then 10
  else 11

/-- ECMAScript `MonthFromTime(t)`, 0 = January. -/
def MonthFromTime (t : Int) : Nat := monthOfDay (DayWithinYear t) (InLeapYear t)

/-- ECMAScript `DateFromTime(t)`: day of the month, from 1. -/
def DateFromTime (t : Int) : Int :=
  DayWithinYear t - monthStart (InLeapYear t) (MonthFromTime t) + 1

/-- ECMAScript `MakeDay(year, month, date)`: the day number of the first of
the month (`year + floor(month / 12)`, `month modulo 12`) plus `date - 1`. -/
def MakeDay (year : Int) (month : Nat) (date : Int) : Int :=
  let ym := year + ((month / 12 : Nat) : Int)
  let mn := month % 12
  DayFromYear ym + monthStart (if DaysInYear ym = 366 then 1 else 0) mn + date - 1

/-- ECMAScript `MakeDate(day, time)`. -/
def MakeDate (day time : Int) : Int := day * oneDay + time

/-- The host time zone: ECMAScript `LocalTZA(t, isUTC)`, the offset of local
time from UTC in milliseconds, at the UTC instant `t` when `isUTC` is true and
at the local time `t` when it is false. -/
structure TimeZone where
  LocalTZA : Int → Bool → Int

/-- ECMAScript `LocalTime(t)`. -/
def LocalTime (tz : TimeZone) (t : Int) : Int := t + tz.LocalTZA t true

/-- ECMAScript `UTC(t)`. -/
def UTC (tz : TimeZone) (t : Int) : Int := t - tz.LocalTZA t false

/-- `Date.prototype.getDate()` on a date of time value `tv`. -/
def getDate (tz : TimeZone) (tv : Int) : Int := DateFromTime (LocalTime tz tv)

/-- `Date.prototype.setDate(dt)` on a date of time value `tv`: the new time
value. -/
def setDate (tz : TimeZone) (tv : Int) (dt : Int) : Int :=
  let t := LocalTime tz tv
  let newDate := MakeDate (MakeDay (YearFromTime t) (MonthFromTime t) dt) (TimeWithinDay t)
  UTC tz newDate

/-! ## `server/utils/dateHelpers.js` -/

/-- `daysBetween(date1, date2)`:
`Math.floor(Math.abs(new Date(date2) - new Date(date1)) / oneDay)`. -/
def daysBetween (date1 date2 : DateArg) : JsNum :=
  match newDate date2, newDate date1 with
  | .num t2, .num t1 => .num (|t2 - t1| / oneDay)
  | _, _ => .nan

/-- `daysUntilNextSubmission(lastSubmissionDate, cooldownDays = 60)`, with
`now` the reading of `new Date()`. -/
def daysUntilNextSubmission (now : Int) (lastSubmissionDate : DateArg)
    (cooldownDays : Int := 60) : JsNum :=
  let daysPassed := daysBetween lastSubmissionDate (.instant now)
  let daysRemaining := JsNum.rsub cooldownDays daysPassed
  mathMax0 daysRemaining

/-- `canSubmitCV(lastSubmissionDate, cooldownDays = 60)`, with `now` the
reading of `new Date()` (read only when `lastSubmissionDate` is truthy). -/
def canSubmitCV (now : Int) (lastSubmissionDate : DateArg)
    (cooldownDays : Int := 60) : Bool :=
  if lastSubmissionDate.falsy then true
  else
    let daysPassed := daysBetween lastSubmissionDate (.instant now)
    daysPassed.ge cooldownDays

/-- `getNextSubmissionDate(lastSubmissionDate, cooldownDays = 60)`: the time
value of the returned `Date`, with `now` the reading of `new Date()` (read only
when `lastSubmissionDate` is falsy). -/
def getNextSubmissionDate (tz : TimeZone) (now : Int) (lastSubmissionDate : DateArg)
    (cooldownDays : Int := 60) : Int :=
  match lastSubmissionDate with
  | .undefined => now
  | .null => now
  | .instant ms => setDate tz ms (getDate tz ms + cooldownDays)

/-- A host running in UTC. -/
def utcZone : TimeZone := ⟨fun _ _ => 0⟩

/-- Central European time around the start of summer time 2026: UTC+1 before
2026-03-29T01:00:00Z (local 02:00), UTC+2 from then on. -/
def berlinSpring2026 : TimeZone :=
  ⟨fun t isUTC =>
    if isUTC then (if t < 1774746000000 then 3600000 else 7200000)
    else (if t < 1774746000000 + 3600000 then 3600000 else 7200000)⟩

/-! ## Request fields and JavaScript truthiness -/

/-- JavaScript truthiness of an optional string field of a JSON body or of a
row: absent (`undefined` or `null`) and the empty string are falsy. -/
def truthy : Option String → Bool
  | none => false
  | some s => decide (s ≠ "")

/-- `x || null`. -/
def orNull (x : Option String) : Option String :=
  if truthy x then x else none

/-- `a || b`. -/
def jsOr (a b : Option String) : Option String :=
  if truthy a then a else b

/-! ## The store: tables `companies` and `cv_submissions` -/

/-- A row of `companies`. -/
structure Company where
  id : Nat
  domain : Option String
  linkedin_url : Option String
  name : Option String
  deriving DecidableEq, Repr

/-- A row of `cv_submissions`. -/
structure Submission where
  id : Nat
  company_id : Nat
  cv_type : String
  submitted_at : Int
  job_title : Option String
  deriving DecidableEq, Repr

/-- The state the handlers run against: the two tables in insertion order, the
sequences giving the next store-assigned `id` of each table, and the index of
the next reading of the system clock. -/
structure World where
  companies : List Company
  cv_submissions : List Submission
  companySeq : Nat
  submissionSeq : Nat
  tick : Nat
  deriving DecidableEq, Repr

/-- The world after one evaluation of `new Date()`. -/
def World.advance (w : World) : World := { w with tick := w.tick + 1 }

/-- Referential integrity of the store: every company id, and every company
id referenced by a submission, was drawn from the company sequence. -/
def World.wellFormed (w : World) : Prop :=
  (∀ c ∈ w.companies, c.id < w.companySeq) ∧
  (∀ s ∈ w.cv_submissions, s.company_id < w.companySeq)

/-- Outcome of a PostgREST query ended with `.single()`: the row when the
result has exactly one row; otherwise no data and the error of code
`PGRST116` ("JSON object requested, multiple (or no) rows returned"). The
store is taken to be available, so no other error arises. -/
inductive SingleResult (α : Type) where
  | data (row : α)
  | pgrst116

/-- PostgREST `.single()` on the rows selected by a query. -/
def single {α : Type} : List α → SingleResult α
  | [row] => .data row
  | _ => .pgrst116

/-- The model functions end with `if (error && error.code !== 'PGRST116')
throw error; return data;`: the row, or `null` on `PGRST116`. -/
def SingleResult.dataOrNull {α : Type} : SingleResult α → Option α
  | .data row => some row
  | .pgrst116 => none

/-! ## `server/models/companyModel.js` -/

/-- The filter `or(domain.eq.<domain>,linkedin_url.eq.<linkedinUrl>)` built by
`findCompany`, each condition present only for a truthy argument. -/
def companyMatches (domain linkedinUrl : Option String) (c : Company) : Bool :=
  (truthy domain && c.domain == domain) || (truthy linkedinUrl && c.linkedin_url == linkedinUrl)

/-- `findCompany(domain, linkedinUrl)`: throws when no condition can be built,
otherwise the single matching row or `null`. -/
def findCompany (w : World) (domain linkedinUrl : Option String) :
    Except String (Option Company) :=
  if !truthy domain && !truthy linkedinUrl then
    .error "Either domain or linkedinUrl must be provided"
  else
    .ok (single (w.companies.filter (companyMatches domain linkedinUrl))).dataOrNull

/-- `createCompany(companyData)`: insert the row, the store assigning its id,
and return it. -/
def createCompany (w : World) (domain linkedin_url name : Option String) :
    Company × World :=
  let row : Company := ⟨w.companySeq, domain, linkedin_url, name⟩
  (row, { w with companies := w.companies ++ [row], companySeq := w.companySeq + 1 })

/-- `getOrCreateCompany(domain, linkedinUrl, companyName = null)`. -/
def getOrCreateCompany (w : World) (domain linkedinUrl : Option String)
    (companyName : Option String := none) : Except String (Company × World) :=
  match findCompany w domain linkedinUrl with
  | .error e => .error e
  | .ok (some company) => .ok (company, w)
  | .ok none =>
    .ok (createCompany w (orNull domain) (orNull linkedinUrl)
      (jsOr companyName (jsOr domain linkedinUrl)))

/-- `.order('submitted_at', { ascending: false })`. -/
def orderBySubmittedAtDesc (rows : List Submission) : List Submission :=
  rows.insertionSort (fun a b => b.submitted_at ≤ a.submitted_at)

/-- `getLatestCVSubmission(companyId, cvType)`: the rows of the pair, latest
first, limited to one, read with `.single()`. -/
def getLatestCVSubmission (w : World) (companyId : Nat) (cvType : String) :
    Option Submission :=
  (single ((orderBySubmittedAtDesc
    (w.cv_submissions.filter (fun s => s.company_id == companyId && s.cv_type == cvType))).take 1)).dataOrNull

/-- `createCVSubmission(submissionData)`: insert the row, the store assigning
its id, and return it. -/
def createCVSubmission (w : World) (company_id : Nat) (cv_type : String)
    (job_title : Option String) (submitted_at : Int) : Submission × World :=
  let row : Submission := ⟨w.submissionSeq, company_id, cv_type, submitted_at, job_title⟩
  (row, { w with cv_submissions := w.cv_submissions ++ [row],
                 submissionSeq := w.submissionSeq + 1 })

/-! ## `server/controllers/cvController.js` -/

/-- The cooldown window of the controllers. -/
def COOLDOWN_DAYS : Int := 60

/-- The JSON body of `POST /cv/check` and `POST /cv/submit`. -/
structure RequestBody where
  domain : Option String
  linkedinUrl : Option String
  cvType : Option String
  companyName : Option String
  jobTitle : Option String
  deriving DecidableEq, Repr

/-- The `company` object of a response. -/
structure CompanyView where
  id : Nat
  name : Option String
  domain : Option String
  linkedinUrl : Option String
  deriving DecidableEq, Repr

/-- The `lastSubmission` object of a check response. -/
structure LastSubmissionView where
  id : Nat
  submittedAt : Int
  jobTitle : Option String
  deriving DecidableEq, Repr

/-- The `company` object built from a row. -/
def companyView (c : Company) : CompanyView := ⟨c.id, c.name, c.domain, c.linkedin_url⟩

/-- Responses of the check and submit handlers. -/
inductive Response where
  /-- 400 with an `error` message: failed validation. -/
  | validationError (error : String)
  /-- 400 `CV cannot be submitted yet`. -/
  | cooldownActive (daysRemaining : JsNum) (nextAvailableDate : Int)
      (lastSubmittedAt : Int) (lastJobTitle : Option String)
  /-- 201 with the created submission and the company. -/
  | created (submission : Submission) (company : CompanyView)
  /-- 200: the eligibility payload of check. -/
  | eligibility (canGenerateCV : Bool) (company : CompanyView) (cvType : String)
      (lastSubmission : Option LastSubmissionView) (daysRemaining : JsNum)
      (nextAvailableDate : Option Int) (message : Option String)
  /-- 500 from the handler's `catch`. -/
  | serverError (message : String)
  deriving DecidableEq, Repr

/-- HTTP status of a response. -/
def Response.status : Response → Nat
  | .validationError _ => 400
  | .cooldownActive _ _ _ _ => 400
  | .created _ _ => 201
  | .eligibility _ _ _ _ _ _ _ => 200
  | .serverError _ => 500

/-- `latestSubmission?.submitted_at`. -/
def submittedAtOf : Option Submission → DateArg
  | none => .undefined
  | some s => .instant s.submitted_at

/-- `checkCVEligibility(req, res)` on body `body`: the response and the world
left behind. -/
def checkCVEligibility (tz : TimeZone) (clock : Nat → Int) (w : World) (body : RequestBody) :
    Response × World :=
  if !truthy body.domain && !truthy body.linkedinUrl then
    (.validationError "Either domain or linkedinUrl must be provided", w)
  else
    match body.cvType with
    | none => (.validationError "cvType must be either \"english\" or \"german\"", w)
    | some cvType =>
      if cvType ≠ "english" ∧ cvType ≠ "german" then
        (.validationError "cvType must be either \"english\" or \"german\"", w)
      else
        match getOrCreateCompany w body.domain body.linkedinUrl body.companyName with
        | .error message => (.serverError message, w)
        | .ok (company, w1) =>
          let latestSubmission := getLatestCVSubmission w1 company.id cvType
          -- `canSubmitCV` evaluates `new Date()` only past its absent-date guard
          let canSubmit := canSubmitCV (clock w1.tick) (submittedAtOf latestSubmission) COOLDOWN_DAYS
          let w2 := if (submittedAtOf latestSubmission).falsy then w1 else w1.advance
          match latestSubmission with
          | some last =>
            let daysRemaining :=
              daysUntilNextSubmission (clock w2.tick) (.instant last.submitted_at) COOLDOWN_DAYS
            let w3 := w2.advance
            let nextAvailableDate :=
              getNextSubmissionDate tz (clock w3.tick) (.instant last.submitted_at) COOLDOWN_DAYS
            (.eligibility canSubmit (companyView company) cvType
              (some ⟨last.id, last.submitted_at, last.job_title⟩) daysRemaining
              (some nextAvailableDate) none, w3)
          | none =>
            (.eligibility canSubmit (companyView company) cvType none (.num 0) none
              (some "No previous submission found. CV can be generated."), w2)

/-- `saveCVSubmission(req, res)` on body `body`: the response and the world
left behind. -/
def saveCVSubmission (tz : TimeZone) (clock : Nat → Int) (w : World) (body : RequestBody) :
    Response × World :=
  if !truthy body.domain && !truthy body.linkedinUrl then
    (.validationError "Either domain or linkedinUrl must be provided", w)
  else
    match body.cvType with
    | none => (.validationError "cvType must be either \"english\" or \"german\"", w)
    | some cvType =>
      if cvType ≠ "english" ∧ cvType ≠ "german" then
        (.validationError "cvType must be either \"english\" or \"german\"", w)
      else
        match getOrCreateCompany w body.domain body.linkedinUrl body.companyName with
        | .error message => (.serverError message, w)
        | .ok (company, w1) =>
          let latestSubmission := getLatestCVSubmission w1 company.id cvType
          -- `canSubmitCV` evaluates `new Date()` only past its absent-date guard
          let canSubmit := canSubmitCV (clock w1.tick) (submittedAtOf latestSubmission) COOLDOWN_DAYS
          let w2 := if (submittedAtOf latestSubmission).falsy then w1 else w1.advance
          if !canSubmit then
            match latestSubmission with
            | some last =>
              let daysRemaining :=
                daysUntilNextSubmission (clock w2.tick) (.instant last.submitted_at) COOLDOWN_DAYS
              let w3 := w2.advance
              (.cooldownActive daysRemaining
                (getNextSubmissionDate tz (clock w3.tick) (.instant last.submitted_at) COOLDOWN_DAYS)
                last.submitted_at last.job_title, w3)
            | none =>
              -- `latestSubmission.submitted_at` on `null` throws; the `catch` answers 500
              (.serverError "Cannot read properties of null", w2)
          else
            let (submission, w3) :=
              createCVSubmission w2.advance company.id cvType (orNull body.jobTitle) (clock w2.tick)
            (.created submission (companyView company), w3)

/-- Submit requests admitted through the queue of concurrency 1: each handler
runs to completion, in arrival order, before the next one starts. -/
def submitAll (tz : TimeZone) (clock : Nat → Int) : World → List RequestBody → List Response × World
  | w, [] => ([], w)
  | w, body :: rest =>
    let (r, w1) := saveCVSubmission tz clock w body
    let (rs, w2) := submitAll tz clock w1 rest
    (r :: rs, w2)

/-- The store with no rows at all. -/
def emptyWorld : World := ⟨[], [], 1, 1, 0⟩

/-! ## Predicates and sample data used in the statements -/

/-- Requests that pass the validation of the check and submit handlers: an
identity field is truthy and `cvType` is `english` or `german`. -/
def RequestBody.valid (body : RequestBody) (cvType : String) : Prop :=
  (truthy body.domain = true ∨ truthy body.linkedinUrl = true) ∧
    body.cvType = some cvType ∧ (cvType = "english" ∨ cvType = "german")

/-- Two submission rows respect the cooldown: when they belong to the same
(company, cvType) pair, `daysBetween` of their instants is at least 60. -/
def cooldownApart (a b : Submission) : Prop :=
  a.company_id = b.company_id → a.cv_type = b.cv_type →
    (daysBetween (.instant a.submitted_at) (.instant b.submitted_at)).ge COOLDOWN_DAYS = true

/-- Invariant carried along a run of submit calls: no stored instant lies
after the next clock reading, and the rows respect the cooldown pairwise. -/
def World.cooldownInv (clock : Nat → Int) (w : World) : Prop :=
  (∀ s ∈ w.cv_submissions, s.submitted_at ≤ clock w.tick) ∧
    w.cv_submissions.Pairwise cooldownApart

/-- A submit request for the domain `acme.example`. -/
def sampleBody : RequestBody :=
  ⟨some "acme.example", none, some "english", none, some "Engineer"⟩

/-- The same request with an empty `jobTitle`. -/
def emptyTitleBody : RequestBody :=
  ⟨some "acme.example", none, some "english", none, some ""⟩

/-- The instant 2026-03-01T12:00:00Z. -/
def march1 : Int := 1772366400000

/-- A clock that advances 30 days between consecutive readings. -/
def monthlyClock : Nat → Int := fun n => march1 + (n : Int) * (30 * 86400000)

/-- A clock that reads the same instant throughout. -/
def frozenClock : Nat → Int := fun _ => march1

/-- A store holding the company `acme.example` and one english submission of
it made at `submittedAt`. -/
def worldWithSubmission (submittedAt : Int) : World :=
  ⟨[⟨1, some "acme.example", none, some "acme.example"⟩],
   [⟨1, 1, "english", submittedAt, some "Engineer"⟩], 2, 2, 0⟩

/-- The descending order on `submitted_at` is total. -/
instance submittedAtDesc_total :
    IsTotal Submission (fun a b => b.submitted_at ≤ a.submitted_at) :=
  ⟨fun a b => le_total b.submitted_at a.submitted_at⟩

/-- The descending order on `submitted_at` is transitive. -/
instance submittedAtDesc_trans :
    IsTrans Submission (fun a b => b.submitted_at ≤ a.submitted_at) :=
  ⟨fun _ _ _ hab hbc => le_trans hbc hab⟩

/-! ## `deleteCompanyById` and `seedCompanies` of `server/models/companyModel.js` -/

/-- Message of the PostgREST error of code `PGRST116`. -/
def pgrst116Message : String := "JSON object requested, multiple (or no) rows returned"

/-- `deleteCompanyById(companyId)`: read the row with `.eq(id).single()` and
throw its error if any (no row: `PGRST116`), then delete the submissions of
the company, then the company, and return the row read. The result comes with
the world left behind, which a throw before the deletes leaves as it was. -/
def deleteCompanyById (w : World) (companyId : Nat) : Except String Company × World :=
  match single (w.companies.filter (fun c => c.id == companyId)) with
  | .pgrst116 => (.error pgrst116Message, w)
  | .data company =>
    (.ok company,
      { w with cv_submissions := w.cv_submissions.filter (fun s => !(s.company_id == companyId)),
               companies := w.companies.filter (fun c => !(c.id == companyId)) })

/-- An entry of a seed batch, with the keys that are columns of `companies`. -/
structure SeedEntry where
  name : Option String
  domain : Option String
  linkedin_url : Option String
  deriving DecidableEq, Repr

/-- The tag of a seed result. -/
inductive SeedStatus where
  | created
  | existing
  deriving DecidableEq, Repr

/-- A seed result `{ ...row, status }`: a row of `companies` and its tag. -/
structure SeedResult where
  row : Company
  status : SeedStatus
  deriving DecidableEq, Repr

/-- `seedCompanies(companiesList)`: for each entry in turn, the row found by
`findCompany(company.domain, company.linkedin_url)` tagged `existing`, else the
row inserted by `createCompany(company)` tagged `created`. A throw of
`findCompany` ends the loop; the rows inserted before it stay. -/
def seedCompanies : World → List SeedEntry → Except String (List SeedResult) × World
  | w, [] => (.ok [], w)
  | w, company :: rest =>
    match findCompany w company.domain company.linkedin_url with
    | .error e => (.error e, w)
    | .ok (some existing) =>
      match seedCompanies w rest with
      | (.ok results, w2) => (.ok (⟨existing, .existing⟩ :: results), w2)
      | (.error e, w2) => (.error e, w2)
    | .ok none =>
      match seedCompanies (createCompany w company.domain company.linkedin_url company.name).2
          rest with
      | (.ok results, w2) =>
        (.ok (⟨(createCompany w company.domain company.linkedin_url company.name).1, .created⟩
          :: results), w2)
      | (.error e, w2) => (.error e, w2)

/-! ## Seeding and listing in `server/controllers/cvController.js` -/

/-- Responses of `seedInitialCompanies`. -/
inductive SeedResponse where
  /-- 400 with an `error` message. -/
  | badRequest (error : String)
  /-- 201 with the counts and the per-entry results. -/
  | seeded (created existing totalSubmissions : Nat) (companies : List SeedResult)
  /-- 500 from the handler's `catch`. -/
  | serverError (message : String)
  deriving DecidableEq, Repr

/-- HTTP status of a seed response. -/
def SeedResponse.status : SeedResponse → Nat
  | .badRequest _ => 400
  | .seeded _ _ _ _ => 201
  | .serverError _ => 500

/-- The expression `r.submissions` on a seed result. A result is a row of
`companies` spread with `status`; neither `findCompany` nor `createCompany`
puts a property `submissions` on it, so the expression is `undefined`. -/
def SeedResult.submissions (_r : SeedResult) : Option (List Submission) := none

/-- `results.reduce((sum, r) => sum + r.submissions.length, sum0)`: reading
`.length` of `undefined` throws a `TypeError`. -/
def reduceSubmissions : Nat → List SeedResult → Except String Nat
  | sum, [] => .ok sum
  | sum, r :: rest =>
    match r.submissions with
    | none => .error "Cannot read properties of undefined (reading length)"
    | some submissions => reduceSubmissions (sum + submissions.length) rest

/-- `seedInitialCompanies(req, res)` on `req.body.companies` (`none` when the
field is missing or not an array): the response and the world left behind. -/
def seedInitialCompanies (w : World) (companies : Option (List SeedEntry)) :
    SeedResponse × World :=
  match companies with
  | none => (.badRequest "companies array is required and must not be empty", w)
  | some [] => (.badRequest "companies array is required and must not be empty", w)
  | some (first :: others) =>
    if (first :: others).any (fun entry => !truthy entry.domain && !truthy entry.linkedin_url) then
      (.badRequest "Each company must have at least a domain or linkedin_url", w)
    else
      match seedCompanies w (first :: others) with
      | (.error message, w1) => (.serverError message, w1)
      | (.ok results, w1) =>
        let created := (results.filter (fun r => r.status == .created)).length
        let existing := (results.filter (fun r => r.status == .existing)).length
        match reduceSubmissions 0 results with
        | .error message => (.serverError message, w1)
        | .ok totalSubmissions => (.seeded created existing totalSubmissions results, w1)

/-- `getAllCompaniesWithSubmissions()`: every company with its embedded
`cv_submissions`, ordered by `created_at` descending. The table is held in
insertion order and `created_at` is set by the store at insertion, so the
order is the reverse of the table. -/
def getAllCompaniesWithSubmissions (w : World) : List (Company × List Submission) :=
  w.companies.reverse.map
    (fun c => (c, w.cv_submissions.filter (fun s => s.company_id == c.id)))

/-- The expression
`submissions.filter((s) => s.cv_type === cvType).sort(latest first)[0] || null`
of the listing; `Array.prototype.sort` is stable. -/
def latestOfType (submissions : List Submission) (cvType : String) : Option Submission :=
  (orderBySubmittedAtDesc (submissions.filter (fun s => s.cv_type == cvType))).head?

/-- The `english` or `german` block of a listing entry (`jobTitle` is absent
from the block when there is no submission). -/
structure StatusBlock where
  lastSubmittedAt : Option Int
  jobTitle : Option String
  daysRemaining : JsNum
  canSubmit : Bool
  nextAvailableDate : Int
  deriving DecidableEq, Repr

/-- An entry of the listing (`createdAt`, a column set by the store, is left
out of the model). -/
structure CompanyEntry where
  id : Nat
  name : Option String
  domain : Option String
  linkedinUrl : Option String
  english : StatusBlock
  german : StatusBlock
  totalSubmissions : Nat
  deriving DecidableEq, Repr

/-- One status block of the listing, with the index of the next clock reading
after it: with a latest submission, `daysUntilNextSubmission` and then
`canSubmitCV` each read the clock; without one, `new Date()` is the next date. -/
def statusBlock (tz : TimeZone) (clock : Nat → Int) (tick : Nat) (latest : Option Submission) :
    StatusBlock × Nat :=
  match latest with
  | some l =>
    (⟨some l.submitted_at, l.job_title,
      daysUntilNextSubmission (clock tick) (.instant l.submitted_at) COOLDOWN_DAYS,
      canSubmitCV (clock (tick + 1)) (.instant l.submitted_at) COOLDOWN_DAYS,
      getNextSubmissionDate tz (clock (tick + 2)) (.instant l.submitted_at) COOLDOWN_DAYS⟩,
     tick + 2)
  | none => (⟨none, none, .num 0, true, clock tick⟩, tick + 1)

/-- The callback of `companies.map(...)` in `getAllCompanies`. -/
def enhanceCompany (tz : TimeZone) (clock : Nat → Int) (tick : Nat)
    (company : Company × List Submission) : CompanyEntry × Nat :=
  let latestEnglish := latestOfType company.2 "english"
  let latestGerman := latestOfType company.2 "german"
  let english := statusBlock tz clock tick latestEnglish
  let german := statusBlock tz clock english.2 latestGerman
  (⟨company.1.id, company.1.name, company.1.domain, company.1.linkedin_url,
    english.1, german.1, company.2.length⟩, german.2)

/-- `companies.map(...)` of `getAllCompanies`, threading the clock. -/
def enhanceAll (tz : TimeZone) (clock : Nat → Int) :
    Nat → List (Company × List Submission) → List CompanyEntry × Nat
  | tick, [] => ([], tick)
  | tick, company :: rest =>
    let entry := enhanceCompany tz clock tick company
    let entries := enhanceAll tz clock entry.2 rest
    (entry.1 :: entries.1, entries.2)

/-- The 200 response of `getAllCompanies`. -/
structure ListingResponse where
  success : Bool
  count : Nat
  companies : List CompanyEntry
  deriving DecidableEq, Repr

/-- `getAllCompanies(req, res)`: the response and the world left behind. -/
def getAllCompanies (tz : TimeZone) (clock : Nat → Int) (w : World) : ListingResponse × World :=
  let enhanced := enhanceAll tz clock w.tick (getAllCompaniesWithSubmissions w)
  (⟨true, enhanced.1.length, enhanced.1⟩, { w with tick := enhanced.2 })

/-- A run of `getOrCreateCompany` calls, one at a time: the companies
returned (or the error thrown) and the world left behind. -/
def getOrCreateAll : World → List (Option String × Option String × Option String) →
    List (Except String Company) × World
  | w, [] => ([], w)
  | w, (domain, linkedinUrl, companyName) :: rest =>
    match getOrCreateCompany w domain linkedinUrl companyName with
    | .error e =>
      ((.error e) :: (getOrCreateAll w rest).1, (getOrCreateAll w rest).2)
    | .ok (company, w1) =>
      ((.ok company) :: (getOrCreateAll w1 rest).1, (getOrCreateAll w1 rest).2)

/-- The decision part of a check response: `canGenerateCV`, `daysRemaining`
and `lastSubmission`. -/
def Response.decision : Response → Option (Bool × JsNum × Option LastSubmissionView)
  | .eligibility canGenerateCV _ _ lastSubmission daysRemaining _ _ =>
    some (canGenerateCV, daysRemaining, lastSubmission)
  | _ => none

/-- A store in which the domain `acme.example` is held by one company and the
profile `linkedin.example/acme` by another. -/
def splitIdentityWorld : World :=
  ⟨[⟨1, some "acme.example", none, some "acme.example"⟩,
    ⟨2, none, some "linkedin.example/acme", some "linkedin.example/acme"⟩], [], 3, 1, 0⟩

/-- A seed entry for the domain `acme.example`. -/
def sampleEntry : SeedEntry := ⟨none, some "acme.example", none⟩

/-- The decision of check as a function of the latest submission of the pair
and of the index of the next clock reading. -/
def decisionOf (clock : Nat → Int) (tick : Nat) :
    Option Submission → Bool × JsNum × Option LastSubmissionView
  | none => (true, .num 0, none)
  | some last =>
    (canSubmitCV (clock tick) (.instant last.submitted_at) COOLDOWN_DAYS,
     daysUntilNextSubmission (clock (tick + 1)) (.instant last.submitted_at) COOLDOWN_DAYS,
     some ⟨last.id, last.submitted_at, last.job_title⟩)

/-- The value `r` is the greatest `submitted_at` among the submissions of the
pair, or `null` when the pair has none. -/
def greatestSubmittedAt (w : World) (companyId : Nat) (cvType : String) : Option Int → Prop
  | none => ∀ s ∈ w.cv_submissions, s.company_id = companyId → s.cv_type ≠ cvType
  | some m =>
    (∃ s ∈ w.cv_submissions, s.company_id = companyId ∧ s.cv_type = cvType ∧
      s.submitted_at = m) ∧
    ∀ s ∈ w.cv_submissions, s.company_id = companyId → s.cv_type = cvType →
      s.submitted_at ≤ m

/-- A status block of the listing agrees with check for company `c` and type
`cvType`: its `lastSubmittedAt` is the greatest instant of the pair, and every
valid check request that resolves to `c` is answered with the block's
`canSubmit` as canGenerateCV and the block's `daysRemaining`. -/
def blockAgrees (tz : TimeZone) (clock : Nat → Int) (w : World) (c : Company)
    (cvType : String) (b : StatusBlock) : Prop :=
  greatestSubmittedAt w c.id cvType b.lastSubmittedAt ∧
  ∀ body : RequestBody, body.valid cvType →
    findCompany w body.domain body.linkedinUrl = .ok (some c) →
    ∃ lastSubmission, (checkCVEligibility tz clock w body).1.decision
      = some (b.canSubmit, b.daysRemaining, lastSubmission)

/-- A listing entry agrees with the Company row `c`: it carries the row's
identity, counts the row's submissions and both its blocks agree with check. -/
def entryAgrees (tz : TimeZone) (clock : Nat → Int) (w : World) (c : Company)
    (e : CompanyEntry) : Prop :=
  e.id = c.id ∧ e.name = c.name ∧ e.domain = c.domain ∧ e.linkedinUrl = c.linkedin_url ∧
  e.totalSubmissions = (w.cv_submissions.filter (fun s => s.company_id == c.id)).length ∧
  blockAgrees tz clock w c "english" e.english ∧ blockAgrees tz clock w c "german" e.german

/-- The sample request for the cvType `german`. -/
def germanBody : RequestBody :=
  ⟨some "acme.example", none, some "german", none, some "Ingenieur"⟩

/-! ## `daysBetween` as computed in IEEE-754 doubles -/

/-- Number of binary digits of `n`, by repeated halving; `fuel` bounds the
number of halvings and `n` itself always suffices. -/
def bitLength : Nat → Nat → Nat
  | 0, _ => 0
  | fuel + 1, n => if n = 0 then 0 else bitLength fuel (n / 2) + 1

/-- The double nearest to the integer `n` (round to nearest, ties to even):
the value of `x - y` when `n` is the exact difference of two doubles `x`, `y`.
A double has a 53-bit significand, so an integer of more digits is rounded to
a multiple of `2 ^ e`, `e` being the number of digits beyond 53. -/
def roundToDouble (n : Int) : Int :=
  let m := n.natAbs
  let e := bitLength m m - 53
  let q := m / 2 ^ e
  let r := m % 2 ^ e
  let up := decide (2 ^ e < 2 * r) || (decide (2 * r = 2 ^ e) && decide (q % 2 = 1))
  Int.sign n * (((if up then q + 1 else q) * 2 ^ e : Nat) : Int)

/-- `Math.floor(d / c)` for doubles holding the integers `d` and `c`: the
floor of the correctly rounded quotient. The quotient lies between `q` and
`q + 1` (`q` the integer quotient); in the binade of `q` doubles are
`2 ^ -(53 - bitLength q)` apart, and the quotient rounds up to `q + 1` when it
is within half that distance of it (a tie goes to `q + 1`, the even one). -/
def floorOfQuotient (d c : Nat) : Nat :=
  let q := d / c
  let r := d % c
  if r = 0 then q
  else if (c - r) * 2 ^ (53 - bitLength q q + 1) ≤ c then q + 1 else q

/-- `daysBetween(date1, date2)` on two valid dates of time values `date1`,
`date2`, as JavaScript computes it in doubles:
`Math.floor(Math.abs(new Date(date2) - new Date(date1)) / oneDay)`. Time
values are integers of magnitude at most 8.64e15, exact as doubles; their
difference is rounded to a double, `Math.abs` is exact, and the division is
rounded before `Math.floor`. The definition `daysBetween` above is the same
computation in exact integers; the two agree for instants at most `2 ^ 53` ms
apart. -/
def daysBetweenDouble (date1 date2 : Int) : Int :=
  let diffTime := (roundToDouble (date2 - date1)).natAbs
  ((floorOfQuotient diffTime oneDay.toNat : Nat) : Int)

/-! ## The queued routes of `server/routes/cvRoutes.js` -/

/-- The names `controllers/cvController.js` exports (its `export const`
declarations). -/
def controllerExports : List String :=
  ["checkCVEligibility", "saveCVSubmission", "getAllCompanies", "deleteCompany",
   "seedInitialCompanies"]

/-- The names `routes/cvRoutes.js` imports from `../controllers/cvController.js`. -/
def routesImports : List String :=
  ["checkCVEligibility", "saveCVSubmission", "checkAndSubmit", "getAllCompanies",
   "deleteCompany", "seedInitialCompanies"]

/-- The routes registered with `queueMiddleware`, each with the name of
the imported handler it wraps. -/
def queuedRoutes : List (String × String) :=
  [("/check", "checkCVEligibility"), ("/submit", "saveCVSubmission"),
   ("/check-and-submit", "checkAndSubmit")]

/-- The handler an imported name is bound to, for the handlers of the queued
routes: the controller function of that name, or no function when the
controller exports no such name. A strict ECMAScript module loader refuses
the import of a missing name and the router module does not load at all; the
model takes the lenient reading of a loader that binds the missing name to
`undefined`, under which the other routes still work. -/
def importedHandler (tz : TimeZone) (clock : Nat → Int) (name : String) :
    Option (World → RequestBody → Response × World) :=
  if name = "checkCVEligibility" then some (checkCVEligibility tz clock)
  else if name = "saveCVSubmission" then some (saveCVSubmission tz clock)
  else none

/-- `queueMiddleware(handler)` on one request that runs alone in the queue:
the task calls `handler(req, res, next)`; when `handler` is not a function the
call throws a `TypeError`, the task rejects and the `catch` of the middleware
answers 500. -/
def queueMiddleware (handler : Option (World → RequestBody → Response × World))
    (w : World) (body : RequestBody) : Response × World :=
  match handler with
  | some h => h w body
  | none => (.serverError "handler is not a function", w)

/-- A POST to a queued route: the response and the world left behind, or
nothing when no such route is registered. -/
def postQueued (tz : TimeZone) (clock : Nat → Int) (path : String) (w : World)
    (body : RequestBody) : Option (Response × World) :=
  match queuedRoutes.lookup path with
  | none => none
  | some name => some (queueMiddleware (importedHandler tz clock name) w body)

/-- A clock that reads one millisecond before 2026-03-01T12:00:00Z first and
that instant from then on. -/
def boundaryClock : Nat → Int := fun n => if n = 0 then march1 - 1 else march1

/-- A check request whose domain and linkedinUrl belong to the two companies
of `splitIdentityWorld`. -/
def splitIdentityBody : RequestBody :=
  ⟨some "acme.example", some "linkedin.example/acme", some "english", none, none⟩

/-! ## Properties of the date helpers -/

theorem oneDay_eq : oneDay = 86400000 := by decide

theorem ite_le_of (c : Prop) [Decidable c] (a b n : Nat) (ha : a ≤ n) (hb : b ≤ n) :
    (if c then a else b) ≤ n := by
  split <;> assumption

theorem monthOfDay_le (d l : Int) : monthOfDay d l ≤ 11 := by
  unfold monthOfDay
  iterate 11 apply ite_le_of _ _ _ _ (by decide)
  decide

theorem monthFromTime_le (t : Int) : MonthFromTime t ≤ 11 := monthOfDay_le _ _

/-- Setting the day of the month to `getDate() + n` moves the local time by
exactly `n` days: `MakeDay` is linear in its date argument. -/
theorem setDate_getDate_add (tz : TimeZone) (tv n : Int) :
    setDate tz tv (getDate tz tv + n) = UTC tz (LocalTime tz tv + n * oneDay) := by
  have hm := monthFromTime_le (LocalTime tz tv)
  have h12 : MonthFromTime (LocalTime tz tv) / 12 = 0 := by omega
  have hmod : MonthFromTime (LocalTime tz tv) % 12 = MonthFromTime (LocalTime tz tv) := by omega
  have hday : Day (LocalTime tz tv) * oneDay + TimeWithinDay (LocalTime tz tv)
      = LocalTime tz tv := by
    unfold Day TimeWithinDay
    exact Int.ediv_add_emod' _ _
  unfold setDate getDate
  simp only
  congr 1
  unfold MakeDate MakeDay DateFromTime DayWithinYear InLeapYear
  simp only [h12, hmod, Nat.cast_zero, add_zero]
  linarith [hday]

theorem daysBetween_instant (a b : Int) :
    daysBetween (.instant a) (.instant b) = .num (|b - a| / oneDay) := rfl

theorem daysBetween_nonneg (a b : Int) : 0 ≤ |b - a| / oneDay :=
  Int.ediv_nonneg (abs_nonneg _) (by decide)

/-- In exact integers `daysBetween` of two instants is the number
`floor(|b - a| / 86400000)`, a non-negative integer, and it is symmetric in
its arguments. -/
theorem daysBetween_floor_abs (a b : Int) :
    daysBetween (.instant a) (.instant b)
        = .num ⌊((|b - a| : Int) : ℚ) / (86400000 : ℚ)⌋
      ∧ (∃ n : Nat, daysBetween (.instant a) (.instant b) = .num (n : Int))
      ∧ daysBetween (.instant a) (.instant b) = daysBetween (.instant b) (.instant a) := by
  refine ⟨?_, ?_, ?_⟩
  · rw [daysBetween_instant, oneDay_eq]
    congr 1
    have h := Rat.floor_intCast_div_natCast (|b - a|) 86400000
    simpa using h.symm
  · refine ⟨(|b - a| / oneDay).toNat, ?_⟩
    rw [daysBetween_instant, Int.toNat_of_nonneg (daysBetween_nonneg a b)]
  · rw [daysBetween_instant, daysBetween_instant, abs_sub_comm]

theorem daysUntilNextSubmission_instant (now last cooldownDays : Int) :
    daysUntilNextSubmission now (.instant last) cooldownDays
      = .num (max 0 (cooldownDays - |now - last| / oneDay)) := rfl

theorem canSubmitCV_instant (now last cooldownDays : Int) :
    canSubmitCV now (.instant last) cooldownDays
      = decide (cooldownDays ≤ |now - last| / oneDay) := rfl

/-- For a present last-submission instant the gate and the remaining-day count
agree, for every cooldown. -/
theorem canSubmitCV_iff_daysRemaining_zero (now last cooldownDays : Int) :
    canSubmitCV now (.instant last) cooldownDays
      = (daysUntilNextSubmission now (.instant last) cooldownDays).isZero := by
  rw [canSubmitCV_instant, daysUntilNextSubmission_instant]
  simp only [JsNum.isZero]
  rw [decide_eq_decide]
  constructor
  · intro h; exact max_eq_left (by linarith)
  · intro h
    have := le_max_right 0 (cooldownDays - |now - last| / oneDay)
    linarith

/-- C5: `canSubmitCV` and `daysUntilNextSubmission == 0`, evaluated at the same
instant, agree for every present `lastSubmittedAt` and every cooldown, but not
for an absent one: at `undefined` (the value the controllers hold when there is
no prior submission) `canSubmitCV` answers true while `daysUntilNextSubmission`,
which lacks the absent-date guard of its two siblings, evaluates to `NaN`, so
`daysRemaining == 0` is false. -/
theorem canSubmitCV_vs_daysRemaining (now cooldownDays : Int) :
    (∀ last : Int, canSubmitCV now (.instant last) cooldownDays
        = (daysUntilNextSubmission now (.instant last) cooldownDays).isZero)
      ∧ canSubmitCV now .undefined cooldownDays = true
      ∧ (daysUntilNextSubmission now .undefined cooldownDays).isZero = false :=
  ⟨fun last => canSubmitCV_iff_daysRemaining_zero now last cooldownDays, rfl, rfl⟩

/-- C7: `daysUntilNextSubmission` equals
`max(0, cooldownDays - daysBetween(lastSubmittedAt, now))` for every present
`lastSubmittedAt`, but with no prior submission it does not return 0: for
`undefined` it evaluates to `NaN`, and for `null` it counts from the epoch. -/
theorem daysUntilNextSubmission_cases (now cooldownDays : Int) :
    (∀ last : Int, daysUntilNextSubmission now (.instant last) cooldownDays
        = mathMax0 (JsNum.rsub cooldownDays (daysBetween (.instant last) (.instant now))))
      ∧ daysUntilNextSubmission now .undefined cooldownDays = .nan
      ∧ daysUntilNextSubmission now .undefined cooldownDays ≠ .num 0
      ∧ daysUntilNextSubmission now .null cooldownDays
          = .num (max 0 (cooldownDays - |now| / oneDay)) := by
  refine ⟨fun _ => rfl, rfl, ?_, ?_⟩
  · show JsNum.nan ≠ JsNum.num 0
    intro h; cases h
  · show JsNum.num (max 0 (cooldownDays - |now - 0| / oneDay)) = _
    rw [sub_zero]

/-- C8 (as stated) fails on a host whose local offset changes inside the
window: in Central European time a submission of 2026-03-01T12:00:00Z has its
next date 60 calendar days later at the same local hour, which is one hour
short of 60 x 86400000 ms. -/
theorem getNextSubmissionDate_dst_counterexample :
    getNextSubmissionDate berlinSpring2026 0 (.instant 1772366400000) 60 - 1772366400000
        = 60 * 86400000 - 3600000
      ∧ getNextSubmissionDate berlinSpring2026 0 (.instant 1772366400000) 60 - 1772366400000
        ≠ 60 * 86400000 := by
  constructor
  · decide
  · decide

/-- C8 (amended): for every present `ts` and cooldown `d`, on a host whose
local UTC offset at the resulting local time equals the offset at `ts` (a UTC
or fixed-offset host in particular), `getNextSubmissionDate(ts, d) - ts` is
exactly `d x 86400000` ms whatever the time of day of `ts`; when `ts` is absent
the result is the current instant. -/
theorem getNextSubmissionDate_exact_days (tz : TimeZone) (now ts d : Int)
    (hoff : tz.LocalTZA (LocalTime tz ts + d * oneDay) false = tz.LocalTZA ts true) :
    getNextSubmissionDate tz now (.instant ts) d - ts = d * 86400000
      ∧ getNextSubmissionDate tz now .undefined d = now
      ∧ getNextSubmissionDate tz now .null d = now := by
  refine ⟨?_, rfl, rfl⟩
  show setDate tz ts (getDate tz ts + d) - ts = d * 86400000
  rw [setDate_getDate_add]
  unfold UTC
  rw [hoff]
  unfold LocalTime
  rw [oneDay_eq]
  ring

/-- Instance on a UTC host, for a submission made at 23:34:56.789. -/
theorem getNextSubmissionDate_exact_days_witness :
    getNextSubmissionDate utcZone 7 (.instant 1772408096789) 60 - 1772408096789
        = 60 * 86400000
      ∧ getNextSubmissionDate utcZone 7 .undefined 60 = 7
      ∧ getNextSubmissionDate utcZone 7 .null 60 = 7 :=
  getNextSubmissionDate_exact_days utcZone 7 1772408096789 60 rfl

/-! ## The store operations -/

theorem single_take_one {α : Type} (l : List α) :
    (single (l.take 1)).dataOrNull = l.head? := by
  cases l with
  | nil => rfl
  | cons x xs => rfl

theorem getLatestCVSubmission_eq_none {w : World} {companyId : Nat} {cvType : String}
    (h : getLatestCVSubmission w companyId cvType = none) :
    ∀ s ∈ w.cv_submissions, s.company_id = companyId → s.cv_type ≠ cvType := by
  intro s hs hid hty
  unfold getLatestCVSubmission at h
  rw [single_take_one] at h
  have hmem : s ∈ orderBySubmittedAtDesc
      (w.cv_submissions.filter (fun s => s.company_id == companyId && s.cv_type == cvType)) := by
    unfold orderBySubmittedAtDesc
    rw [(List.perm_insertionSort _ _).mem_iff]
    simp [List.mem_filter, hs, hid, hty]
  cases hl : orderBySubmittedAtDesc
      (w.cv_submissions.filter (fun s => s.company_id == companyId && s.cv_type == cvType)) with
  | nil => rw [hl] at hmem; cases hmem
  | cons x xs => rw [hl] at h; cases h

theorem getLatestCVSubmission_eq_some {w : World} {companyId : Nat} {cvType : String}
    {last : Submission} (h : getLatestCVSubmission w companyId cvType = some last) :
    last ∈ w.cv_submissions ∧ last.company_id = companyId ∧ last.cv_type = cvType ∧
      ∀ s ∈ w.cv_submissions, s.company_id = companyId → s.cv_type = cvType →
        s.submitted_at ≤ last.submitted_at := by
  unfold getLatestCVSubmission at h
  rw [single_take_one] at h
  have hsorted := List.sorted_insertionSort (fun a b : Submission => b.submitted_at ≤ a.submitted_at)
    (w.cv_submissions.filter (fun s => s.company_id == companyId && s.cv_type == cvType))
  have hperm := List.perm_insertionSort (fun a b : Submission => b.submitted_at ≤ a.submitted_at)
    (w.cv_submissions.filter (fun s => s.company_id == companyId && s.cv_type == cvType))
  unfold orderBySubmittedAtDesc at h
  cases hl : (w.cv_submissions.filter
      (fun s => s.company_id == companyId && s.cv_type == cvType)).insertionSort
      (fun a b => b.submitted_at ≤ a.submitted_at) with
  | nil => rw [hl] at h; cases h
  | cons x xs =>
    rw [hl] at h hsorted hperm
    simp only [List.head?_cons, Option.some.injEq] at h
    subst h
    have hx : x ∈ w.cv_submissions.filter
        (fun s => s.company_id == companyId && s.cv_type == cvType) :=
      hperm.mem_iff.mp (List.mem_cons_self _ _)
    simp only [List.mem_filter, Bool.and_eq_true, beq_iff_eq] at hx
    refine ⟨hx.1, hx.2.1, hx.2.2, ?_⟩
    intro s hs hid hty
    have hsf : s ∈ x :: xs := by
      rw [hperm.mem_iff]
      simp [List.mem_filter, hs, hid, hty]
    rcases List.mem_cons.mp hsf with rfl | hin
    · exact le_refl _
    · exact List.rel_of_sorted_cons hsorted s hin

/-- What `getOrCreateCompany` leaves untouched: the submissions, the
submission sequence and the clock. -/
theorem getOrCreateCompany_frame {w w1 : World} {domain linkedinUrl companyName : Option String}
    {company : Company}
    (h : getOrCreateCompany w domain linkedinUrl companyName = .ok (company, w1)) :
    w1.cv_submissions = w.cv_submissions ∧ w1.submissionSeq = w.submissionSeq ∧
      w1.tick = w.tick := by
  unfold getOrCreateCompany at h
  split at h
  · cases h
  · cases h; exact ⟨rfl, rfl, rfl⟩
  · cases h; exact ⟨rfl, rfl, rfl⟩

/-! ## The submit handler, branch by branch -/

theorem saveCVSubmission_first (tz : TimeZone) (clock : Nat → Int) (w w1 : World)
    (body : RequestBody) (cvType : String) (company : Company)
    (hv : body.valid cvType)
    (hco : getOrCreateCompany w body.domain body.linkedinUrl body.companyName = .ok (company, w1))
    (hnone : getLatestCVSubmission w1 company.id cvType = none) :
    saveCVSubmission tz clock w body =
      (.created ⟨w1.submissionSeq, company.id, cvType, clock w1.tick, orNull body.jobTitle⟩
        (companyView company),
       { w1 with cv_submissions := w1.cv_submissions ++
                   [⟨w1.submissionSeq, company.id, cvType, clock w1.tick, orNull body.jobTitle⟩],
                 submissionSeq := w1.submissionSeq + 1, tick := w1.tick + 1 }) := by
  obtain ⟨hid, hcv, hty⟩ := hv
  have h1 : (!truthy body.domain && !truthy body.linkedinUrl) = false := by
    rcases hid with h | h <;> simp [h]
  have h2 : ¬ (cvType ≠ "english" ∧ cvType ≠ "german") := by
    rcases hty with h | h <;> simp [h]
  unfold saveCVSubmission
  simp only [h1, hcv, h2, hco, hnone, submittedAtOf, DateArg.falsy, canSubmitCV]
  rfl

theorem saveCVSubmission_eligible (tz : TimeZone) (clock : Nat → Int) (w w1 : World)
    (body : RequestBody) (cvType : String) (company : Company) (last : Submission)
    (hv : body.valid cvType)
    (hco : getOrCreateCompany w body.domain body.linkedinUrl body.companyName = .ok (company, w1))
    (hlast : getLatestCVSubmission w1 company.id cvType = some last)
    (hage : 60 ≤ |clock w1.tick - last.submitted_at| / oneDay) :
    saveCVSubmission tz clock w body =
      (.created ⟨w1.submissionSeq, company.id, cvType, clock (w1.tick + 1), orNull body.jobTitle⟩
        (companyView company),
       { w1 with cv_submissions := w1.cv_submissions ++
                   [⟨w1.submissionSeq, company.id, cvType, clock (w1.tick + 1),
                     orNull body.jobTitle⟩],
                 submissionSeq := w1.submissionSeq + 1, tick := w1.tick + 1 + 1 }) := by
  obtain ⟨hid, hcv, hty⟩ := hv
  have h1 : (!truthy body.domain && !truthy body.linkedinUrl) = false := by
    rcases hid with h | h <;> simp [h]
  have h2 : ¬ (cvType ≠ "english" ∧ cvType ≠ "german") := by
    rcases hty with h | h <;> simp [h]
  have h3 : canSubmitCV (clock w1.tick) (.instant last.submitted_at) COOLDOWN_DAYS = true := by
    rw [canSubmitCV_instant]
    exact decide_eq_true hage
  unfold saveCVSubmission
  simp only [h1, hcv, h2, hco, hlast, submittedAtOf, DateArg.falsy, h3]
  rfl

theorem saveCVSubmission_refused (tz : TimeZone) (clock : Nat → Int) (w w1 : World)
    (body : RequestBody) (cvType : String) (company : Company) (last : Submission)
    (hv : body.valid cvType)
    (hco : getOrCreateCompany w body.domain body.linkedinUrl body.companyName = .ok (company, w1))
    (hlast : getLatestCVSubmission w1 company.id cvType = some last)
    (hage : |clock w1.tick - last.submitted_at| / oneDay < 60) :
    saveCVSubmission tz clock w body =
      (.cooldownActive
        (daysUntilNextSubmission (clock (w1.tick + 1)) (.instant last.submitted_at) COOLDOWN_DAYS)
        (getNextSubmissionDate tz (clock (w1.tick + 1 + 1)) (.instant last.submitted_at)
          COOLDOWN_DAYS)
        last.submitted_at last.job_title,
       { w1 with tick := w1.tick + 1 + 1 }) := by
  obtain ⟨hid, hcv, hty⟩ := hv
  have h1 : (!truthy body.domain && !truthy body.linkedinUrl) = false := by
    rcases hid with h | h <;> simp [h]
  have h2 : ¬ (cvType ≠ "english" ∧ cvType ≠ "german") := by
    rcases hty with h | h <;> simp [h]
  have h3 : canSubmitCV (clock w1.tick) (.instant last.submitted_at) COOLDOWN_DAYS = false := by
    rw [canSubmitCV_instant]
    exact decide_eq_false (not_le.mpr hage)
  unfold saveCVSubmission
  simp only [h1, hcv, h2, hco, hlast, submittedAtOf, DateArg.falsy, h3]
  rfl


/-- Every call of the submit handler either leaves the world as it was (a
validation failure or a failed identity lookup) or resolved a company and took
one of the three branches above. -/
theorem saveCVSubmission_cases (tz : TimeZone) (clock : Nat → Int) (w : World)
    (body : RequestBody) :
    (saveCVSubmission tz clock w body).2 = w ∨
    ∃ (cvType : String) (company : Company) (w1 : World),
      body.valid cvType ∧
      getOrCreateCompany w body.domain body.linkedinUrl body.companyName = .ok (company, w1) ∧
      (getLatestCVSubmission w1 company.id cvType = none ∨
        ∃ last, getLatestCVSubmission w1 company.id cvType = some last) := by
  by_cases h1 : (!truthy body.domain && !truthy body.linkedinUrl) = true
  · left; unfold saveCVSubmission; simp only [h1, if_true]
  · cases hcv : body.cvType with
    | none => left; unfold saveCVSubmission; simp [h1, hcv]
    | some cvType =>
      by_cases h2 : cvType ≠ "english" ∧ cvType ≠ "german"
      · left; unfold saveCVSubmission; simp [h1, hcv, h2]
      · cases hco : getOrCreateCompany w body.domain body.linkedinUrl body.companyName with
        | error e => left; unfold saveCVSubmission; simp [h1, hcv, h2, hco]
        | ok p =>
          obtain ⟨company, w1⟩ := p
          right
          refine ⟨cvType, company, w1, ⟨?_, hcv, ?_⟩, rfl, ?_⟩
          · by_contra hne
            apply h1
            cases hd : truthy body.domain <;> cases hl : truthy body.linkedinUrl <;>
              simp_all
          · by_contra hne
            apply h2
            constructor <;> intro h <;> exact hne (by simp [h])
          · cases getLatestCVSubmission w1 company.id cvType with
            | none => left; rfl
            | some last => right; exact ⟨last, rfl⟩

theorem cooldownApart_iff (a b : Submission) :
    cooldownApart a b ↔ (a.company_id = b.company_id → a.cv_type = b.cv_type →
      60 ≤ |b.submitted_at - a.submitted_at| / oneDay) := by
  unfold cooldownApart
  rw [daysBetween_instant]
  simp [JsNum.ge, COOLDOWN_DAYS]

/-- Appending a row stamped with a clock reading keeps the invariant when the
row is eligible with respect to every stored row of its pair. -/
theorem cooldownInv_append (clock : Nat → Int) (hmono : Monotone clock) (w : World)
    (row : Submission) (i n seq : Nat) (hi : i ≤ n) (hrow : row.submitted_at = clock i)
    (hbound : ∀ s ∈ w.cv_submissions, s.submitted_at ≤ clock i)
    (hpair : w.cv_submissions.Pairwise cooldownApart)
    (hnew : ∀ s ∈ w.cv_submissions, cooldownApart s row) :
    World.cooldownInv clock
      { w with cv_submissions := w.cv_submissions ++ [row], submissionSeq := seq, tick := n } := by
  constructor
  · intro s hs
    show s.submitted_at ≤ clock n
    rcases List.mem_append.mp hs with h | h
    · exact le_trans (hbound s h) (hmono hi)
    · rw [List.mem_singleton.mp h, hrow]; exact hmono hi
  · show (w.cv_submissions ++ [row]).Pairwise cooldownApart
    rw [List.pairwise_append]
    refine ⟨hpair, List.pairwise_singleton _ _, ?_⟩
    intro a ha b hb
    rw [List.mem_singleton.mp hb]
    exact hnew a ha

/-- One submit call preserves the invariant under a non-decreasing clock. -/
theorem saveCVSubmission_cooldownInv (tz : TimeZone) (clock : Nat → Int)
    (hmono : Monotone clock) (w : World) (body : RequestBody)
    (hinv : w.cooldownInv clock) :
    (saveCVSubmission tz clock w body).2.cooldownInv clock := by
  rcases saveCVSubmission_cases tz clock w body with h | ⟨cvType, company, w1, hv, hco, hl⟩
  · rw [h]; exact hinv
  · obtain ⟨hsub, _, htick⟩ := getOrCreateCompany_frame hco
    obtain ⟨hbound, hpair⟩ := hinv
    rw [← hsub, ← htick] at hbound
    rw [← hsub] at hpair
    rcases hl with hnone | ⟨last, hlast⟩
    · rw [saveCVSubmission_first tz clock w w1 body cvType company hv hco hnone]
      apply cooldownInv_append clock hmono w1 _ w1.tick _ _ (Nat.le_succ _) rfl hbound hpair
      intro s hs hid hty
      exact absurd hty (getLatestCVSubmission_eq_none hnone s hs hid)
    · by_cases hage : 60 ≤ |clock w1.tick - last.submitted_at| / oneDay
      · rw [saveCVSubmission_eligible tz clock w w1 body cvType company last hv hco hlast hage]
        obtain ⟨hmem, _, _, hmax⟩ := getLatestCVSubmission_eq_some hlast
        have hstep : clock w1.tick ≤ clock (w1.tick + 1) := hmono (Nat.le_succ _)
        apply cooldownInv_append clock hmono w1 _ (w1.tick + 1) _ _ (Nat.le_succ _) rfl
          (fun s hs => le_trans (hbound s hs) hstep) hpair
        intro s hs
        rw [cooldownApart_iff]
        intro hid hty
        have h1 : s.submitted_at ≤ last.submitted_at := hmax s hs hid hty
        have h2 : last.submitted_at ≤ clock w1.tick := hbound last hmem
        refine le_trans hage (Int.ediv_le_ediv (by decide) ?_)
        show |clock w1.tick - last.submitted_at| ≤ |clock (w1.tick + 1) - s.submitted_at|
        rw [abs_of_nonneg (by linarith), abs_of_nonneg (by linarith)]
        linarith
      · rw [saveCVSubmission_refused tz clock w w1 body cvType company last hv hco hlast
          (not_le.mp hage)]
        constructor
        · intro s hs
          exact le_trans (hbound s hs) (hmono (by show w1.tick ≤ w1.tick + 1 + 1; omega))
        · exact hpair

/-- A run of submit calls preserves the invariant under a non-decreasing clock. -/
theorem submitAll_cooldownInv (tz : TimeZone) (clock : Nat → Int) (hmono : Monotone clock)
    (bodies : List RequestBody) :
    ∀ w : World, w.cooldownInv clock → (submitAll tz clock w bodies).2.cooldownInv clock := by
  induction bodies with
  | nil => intro w h; exact h
  | cons body rest ih =>
    intro w h
    exact ih _ (saveCVSubmission_cooldownInv tz clock hmono w body h)

theorem monthlyClock_monotone : Monotone monthlyClock := by
  intro a b h
  unfold monthlyClock
  have : (a : Int) ≤ (b : Int) := by exact_mod_cast h
  nlinarith

/-- C1: starting from a store with no submissions, after any sequence of
submit calls executed one at a time under a non-decreasing clock, every two
Submission rows of the same (company_id, cv_type) pair have `submitted_at`
instants at least 60 whole days apart. -/
theorem cooldown_invariant (tz : TimeZone) (clock : Nat → Int) (hmono : Monotone clock)
    (w0 : World) (h0 : w0.cv_submissions = []) (bodies : List RequestBody) :
    (submitAll tz clock w0 bodies).2.cv_submissions.Pairwise cooldownApart := by
  apply (submitAll_cooldownInv tz clock hmono bodies w0 _).2
  constructor
  · intro s hs; rw [h0] at hs; cases hs
  · rw [h0]; exact List.Pairwise.nil

/-- Instance: four submit calls for one pair under a clock advancing 30 days per reading leave two rows, 120 days apart. -/
theorem cooldown_invariant_witness :
    Monotone monthlyClock ∧ emptyWorld.cv_submissions = [] ∧
      (submitAll utcZone monthlyClock emptyWorld
        [sampleBody, sampleBody, sampleBody, sampleBody]).2.cv_submissions.Pairwise
          cooldownApart ∧
      ((submitAll utcZone monthlyClock emptyWorld
        [sampleBody, sampleBody, sampleBody, sampleBody]).2.cv_submissions.map
          Submission.submitted_at = [march1, march1 + 120 * 86400000]) :=
  ⟨monthlyClock_monotone, rfl,
    cooldown_invariant utcZone monthlyClock monthlyClock_monotone emptyWorld rfl _, by decide⟩


/-! ## The check handler, branch by branch -/

theorem checkCVEligibility_none (tz : TimeZone) (clock : Nat → Int) (w w1 : World)
    (body : RequestBody) (cvType : String) (company : Company)
    (hv : body.valid cvType)
    (hco : getOrCreateCompany w body.domain body.linkedinUrl body.companyName = .ok (company, w1))
    (hnone : getLatestCVSubmission w1 company.id cvType = none) :
    checkCVEligibility tz clock w body =
      (.eligibility true (companyView company) cvType none (.num 0) none
        (some "No previous submission found. CV can be generated."), w1) := by
  obtain ⟨hid, hcv, hty⟩ := hv
  have h1 : (!truthy body.domain && !truthy body.linkedinUrl) = false := by
    rcases hid with h | h <;> simp [h]
  have h2 : ¬ (cvType ≠ "english" ∧ cvType ≠ "german") := by
    rcases hty with h | h <;> simp [h]
  unfold checkCVEligibility
  simp only [h1, hcv, h2, hco, hnone, submittedAtOf, DateArg.falsy, canSubmitCV]
  rfl

theorem checkCVEligibility_some (tz : TimeZone) (clock : Nat → Int) (w w1 : World)
    (body : RequestBody) (cvType : String) (company : Company) (last : Submission)
    (hv : body.valid cvType)
    (hco : getOrCreateCompany w body.domain body.linkedinUrl body.companyName = .ok (company, w1))
    (hlast : getLatestCVSubmission w1 company.id cvType = some last) :
    checkCVEligibility tz clock w body =
      (.eligibility (canSubmitCV (clock w1.tick) (.instant last.submitted_at) COOLDOWN_DAYS)
        (companyView company) cvType (some ⟨last.id, last.submitted_at, last.job_title⟩)
        (daysUntilNextSubmission (clock (w1.tick + 1)) (.instant last.submitted_at) COOLDOWN_DAYS)
        (some (getNextSubmissionDate tz (clock (w1.tick + 1 + 1)) (.instant last.submitted_at)
          COOLDOWN_DAYS)) none,
       { w1 with tick := w1.tick + 1 + 1 }) := by
  obtain ⟨hid, hcv, hty⟩ := hv
  have h1 : (!truthy body.domain && !truthy body.linkedinUrl) = false := by
    rcases hid with h | h <;> simp [h]
  have h2 : ¬ (cvType ≠ "english" ∧ cvType ≠ "german") := by
    rcases hty with h | h <;> simp [h]
  unfold checkCVEligibility
  simp only [h1, hcv, h2, hco, hlast, submittedAtOf, DateArg.falsy]
  rfl

/-! ## Resolving an identity that matches no row -/

theorem findCompany_no_match (w : World) (domain linkedinUrl : Option String)
    (hid : truthy domain = true ∨ truthy linkedinUrl = true)
    (hno : w.companies.filter (companyMatches domain linkedinUrl) = []) :
    findCompany w domain linkedinUrl = .ok none := by
  have h1 : (!truthy domain && !truthy linkedinUrl) = false := by
    rcases hid with h | h <;> simp [h]
  unfold findCompany
  simp only [h1, hno]
  rfl

theorem getOrCreateCompany_no_match (w : World) (domain linkedinUrl companyName : Option String)
    (hid : truthy domain = true ∨ truthy linkedinUrl = true)
    (hno : w.companies.filter (companyMatches domain linkedinUrl) = []) :
    getOrCreateCompany w domain linkedinUrl companyName =
      .ok (⟨w.companySeq, orNull domain, orNull linkedinUrl,
            jsOr companyName (jsOr domain linkedinUrl)⟩,
           { w with companies := w.companies ++
                      [⟨w.companySeq, orNull domain, orNull linkedinUrl,
                        jsOr companyName (jsOr domain linkedinUrl)⟩],
                    companySeq := w.companySeq + 1 }) := by
  unfold getOrCreateCompany
  rw [findCompany_no_match w domain linkedinUrl hid hno]
  rfl

theorem getLatestCVSubmission_none_of_forall (w : World) (companyId : Nat) (cvType : String)
    (h : ∀ s ∈ w.cv_submissions, s.company_id ≠ companyId) :
    getLatestCVSubmission w companyId cvType = none := by
  have hf : w.cv_submissions.filter
      (fun s => s.company_id == companyId && s.cv_type == cvType) = [] := by
    rw [List.filter_eq_nil_iff]
    intro s hs
    simp [h s hs]
  unfold getLatestCVSubmission orderBySubmittedAtDesc
  rw [hf]
  rfl

/-- C10: for every identity that matches no Company row of a store with
referential integrity, and every valid cvType, check answers 200 with
canGenerateCV true, daysRemaining 0 and no lastSubmission (nor a next date),
for the company it has just created. -/
theorem checkCVEligibility_fresh (tz : TimeZone) (clock : Nat → Int) (w : World)
    (body : RequestBody) (cvType : String)
    (hv : body.valid cvType)
    (hno : w.companies.filter (companyMatches body.domain body.linkedinUrl) = [])
    (hwf : w.wellFormed) :
    ∃ (company : CompanyView) (message : Option String) (w1 : World),
      checkCVEligibility tz clock w body =
        (.eligibility true company cvType none (.num 0) none message, w1) ∧
      (checkCVEligibility tz clock w body).1.status = 200 := by
  have hco := getOrCreateCompany_no_match w body.domain body.linkedinUrl body.companyName hv.1 hno
  have hnone := getLatestCVSubmission_none_of_forall
    { w with companies := w.companies ++
               [⟨w.companySeq, orNull body.domain, orNull body.linkedinUrl,
                 jsOr body.companyName (jsOr body.domain body.linkedinUrl)⟩],
             companySeq := w.companySeq + 1 } w.companySeq cvType
    (fun s hs => Nat.ne_of_lt (hwf.2 s hs))
  have h := checkCVEligibility_none tz clock w _ body cvType _ hv hco hnone
  exact ⟨_, _, _, h, by rw [h]; rfl⟩

/-- Instance: a check for a domain on the empty store. -/
theorem checkCVEligibility_fresh_witness :
    sampleBody.valid "english" ∧
      emptyWorld.companies.filter (companyMatches sampleBody.domain sampleBody.linkedinUrl) = [] ∧
      emptyWorld.wellFormed ∧
      ∃ (company : CompanyView) (message : Option String) (w1 : World),
        checkCVEligibility utcZone frozenClock emptyWorld sampleBody =
          (.eligibility true company "english" none (.num 0) none message, w1) ∧
        (checkCVEligibility utcZone frozenClock emptyWorld sampleBody).1.status = 200 :=
  have hv : sampleBody.valid "english" := ⟨Or.inl (by decide), rfl, Or.inl rfl⟩
  have hwf : emptyWorld.wellFormed := by
    constructor <;> intro x hx <;> cases hx
  ⟨hv, rfl, hwf,
    checkCVEligibility_fresh utcZone frozenClock emptyWorld sampleBody "english" hv rfl hwf⟩

/-- C9: when the latest Submission of the requested cvType of the resolved
company is `k` whole days old at the instants the handler reads the clock,
check answers canGenerateCV = (k >= 60) and daysRemaining = max(0, 60 - k),
with the lastSubmission summary; so 59 days give false and 1, 60 days true. -/
theorem checkCVEligibility_age (tz : TimeZone) (clock : Nat → Int) (w w1 : World)
    (body : RequestBody) (cvType : String) (company : Company) (last : Submission) (k : Int)
    (hv : body.valid cvType)
    (hco : getOrCreateCompany w body.domain body.linkedinUrl body.companyName = .ok (company, w1))
    (hlast : getLatestCVSubmission w1 company.id cvType = some last)
    (hk1 : daysBetween (.instant last.submitted_at) (.instant (clock w.tick)) = .num k)
    (hk2 : daysBetween (.instant last.submitted_at) (.instant (clock (w.tick + 1))) = .num k) :
    ∃ (nextAvailableDate : Option Int) (w2 : World),
      checkCVEligibility tz clock w body =
        (.eligibility (decide (60 ≤ k)) (companyView company) cvType
          (some ⟨last.id, last.submitted_at, last.job_title⟩) (.num (max 0 (60 - k)))
          nextAvailableDate none, w2) ∧
      0 ≤ k := by
  obtain ⟨_, _, htick⟩ := getOrCreateCompany_frame hco
  have h := checkCVEligibility_some tz clock w w1 body cvType company last hv hco hlast
  rw [htick] at h
  have hc : canSubmitCV (clock w.tick) (.instant last.submitted_at) COOLDOWN_DAYS
      = decide (60 ≤ k) := by
    unfold canSubmitCV
    simp only [DateArg.falsy, Bool.false_eq_true, if_false, hk1]
    rfl
  have hd : daysUntilNextSubmission (clock (w.tick + 1)) (.instant last.submitted_at)
      COOLDOWN_DAYS = .num (max 0 (60 - k)) := by
    unfold daysUntilNextSubmission
    simp only [hk2]
    rfl
  rw [hc, hd] at h
  refine ⟨_, _, h, ?_⟩
  rw [daysBetween_instant] at hk1
  cases hk1
  exact daysBetween_nonneg _ _

/-- Instance: a submission 59 days old gives canGenerateCV false and daysRemaining 1. -/
theorem checkCVEligibility_age_witness :
    (∃ (nextAvailableDate : Option Int) (w2 : World),
      checkCVEligibility utcZone frozenClock (worldWithSubmission (march1 - 59 * 86400000))
          sampleBody =
        (.eligibility false ⟨1, some "acme.example", some "acme.example", none⟩ "english"
          (some ⟨1, march1 - 59 * 86400000, some "Engineer"⟩) (.num 1)
          nextAvailableDate none, w2) ∧
      (0 : Int) ≤ 59) :=
  checkCVEligibility_age utcZone frozenClock (worldWithSubmission (march1 - 59 * 86400000))
    (worldWithSubmission (march1 - 59 * 86400000)) sampleBody "english"
    ⟨1, some "acme.example", none, some "acme.example"⟩
    ⟨1, 1, "english", march1 - 59 * 86400000, some "Engineer"⟩ 59
    ⟨Or.inl (by decide), rfl, Or.inl rfl⟩ rfl (by decide) (by decide) (by decide)


/-! ## Gate and commit of the submit handler -/

/-- C3: when the latest Submission of the requested pair of the resolved
company is less than 60 whole days old at the decision, submit answers 400
with daysRemaining = max(0, 60 - daysBetween(lastSubmittedAt, now)), `now`
being the instant at which the remaining days are computed, the next available
date and the summary of that submission; the Submission rows are unchanged. -/
theorem saveCVSubmission_gate (tz : TimeZone) (clock : Nat → Int) (w w1 : World)
    (body : RequestBody) (cvType : String) (company : Company) (last : Submission)
    (hv : body.valid cvType)
    (hco : getOrCreateCompany w body.domain body.linkedinUrl body.companyName = .ok (company, w1))
    (hlast : getLatestCVSubmission w1 company.id cvType = some last)
    (hage : (daysBetween (.instant last.submitted_at) (.instant (clock w.tick))).ge 60 = false) :
    ∃ w2 : World,
      saveCVSubmission tz clock w body =
        (.cooldownActive
          (mathMax0 (JsNum.rsub 60
            (daysBetween (.instant last.submitted_at) (.instant (clock (w.tick + 1))))))
          (getNextSubmissionDate tz (clock (w.tick + 2)) (.instant last.submitted_at) 60)
          last.submitted_at last.job_title, w2) ∧
      (saveCVSubmission tz clock w body).1.status = 400 ∧
      w2.cv_submissions = w.cv_submissions ∧ w2.companies = w1.companies := by
  obtain ⟨hsub, _, htick⟩ := getOrCreateCompany_frame hco
  have hlt : |clock w1.tick - last.submitted_at| / oneDay < 60 := by
    rw [htick]
    rw [daysBetween_instant] at hage
    simpa [JsNum.ge] using hage
  have h := saveCVSubmission_refused tz clock w w1 body cvType company last hv hco hlast hlt
  rw [htick] at h
  exact ⟨_, h, by rw [h]; rfl, hsub, rfl⟩

/-- Instance: a submit 59 days after the last submission of the pair. -/
theorem saveCVSubmission_gate_witness :
    ∃ w2 : World,
      saveCVSubmission utcZone frozenClock (worldWithSubmission (march1 - 59 * 86400000))
          sampleBody =
        (.cooldownActive
          (mathMax0 (JsNum.rsub 60
            (daysBetween (.instant (march1 - 59 * 86400000)) (.instant (frozenClock 1)))))
          (getNextSubmissionDate utcZone (frozenClock 2) (.instant (march1 - 59 * 86400000)) 60)
          (march1 - 59 * 86400000) (some "Engineer"), w2) ∧
      (saveCVSubmission utcZone frozenClock (worldWithSubmission (march1 - 59 * 86400000))
          sampleBody).1.status = 400 ∧
      w2.cv_submissions = (worldWithSubmission (march1 - 59 * 86400000)).cv_submissions ∧
      w2.companies = (worldWithSubmission (march1 - 59 * 86400000)).companies :=
  saveCVSubmission_gate utcZone frozenClock (worldWithSubmission (march1 - 59 * 86400000))
    (worldWithSubmission (march1 - 59 * 86400000)) sampleBody "english"
    ⟨1, some "acme.example", none, some "acme.example"⟩
    ⟨1, 1, "english", march1 - 59 * 86400000, some "Engineer"⟩
    ⟨Or.inl (by decide), rfl, Or.inl rfl⟩ rfl (by decide) (by decide)

/-- C4 (as stated) fails for a supplied empty jobTitle: the request is
answered 201 and the one inserted row has job_title null, not the supplied
empty string. -/
theorem saveCVSubmission_empty_jobTitle :
    emptyTitleBody.jobTitle = some "" ∧
      (saveCVSubmission utcZone frozenClock emptyWorld emptyTitleBody).1.status = 201 ∧
      (saveCVSubmission utcZone frozenClock emptyWorld emptyTitleBody).2.cv_submissions
        = [⟨1, 1, "english", march1, none⟩] ∧
      (saveCVSubmission utcZone frozenClock emptyWorld emptyTitleBody).2.cv_submissions.map
        Submission.job_title ≠ [emptyTitleBody.jobTitle] := by
  refine ⟨rfl, by decide, by decide, by decide⟩

/-- C4 (amended): for every valid request whose pair is eligible (no prior
submission of that type for the resolved company, or the latest one at least
60 whole days old at the decision), submit inserts exactly one Submission row,
with company_id the resolved company id, cv_type the requested cvType,
submitted_at a clock reading taken during the call and job_title the supplied
jobTitle, or null when it is absent or empty, and answers 201 with that row
and the company identity. -/
theorem saveCVSubmission_commit (tz : TimeZone) (clock : Nat → Int) (w w1 : World)
    (body : RequestBody) (cvType : String) (company : Company)
    (hv : body.valid cvType)
    (hco : getOrCreateCompany w body.domain body.linkedinUrl body.companyName = .ok (company, w1))
    (helig : getLatestCVSubmission w1 company.id cvType = none ∨
      ∃ last, getLatestCVSubmission w1 company.id cvType = some last ∧
        (daysBetween (.instant last.submitted_at) (.instant (clock w.tick))).ge 60 = true) :
    ∃ (row : Submission) (w2 : World),
      saveCVSubmission tz clock w body = (.created row (companyView company), w2) ∧
      (saveCVSubmission tz clock w body).1.status = 201 ∧
      w2.cv_submissions = w.cv_submissions ++ [row] ∧
      w2.companies = w1.companies ∧
      row.company_id = company.id ∧ row.cv_type = cvType ∧
      row.job_title = (if truthy body.jobTitle then body.jobTitle else none) ∧
      (∃ i, w.tick ≤ i ∧ i < w2.tick ∧ row.submitted_at = clock i) := by
  obtain ⟨hsub, _, htick⟩ := getOrCreateCompany_frame hco
  rcases helig with hnone | ⟨last, hlast, hage⟩
  · have h := saveCVSubmission_first tz clock w w1 body cvType company hv hco hnone
    refine ⟨_, _, h, by rw [h]; rfl, ?_, rfl, rfl, rfl, rfl, w.tick, le_refl _, ?_, ?_⟩
    · show w1.cv_submissions ++ _ = _
      rw [hsub]
    · show w.tick < w1.tick + 1
      omega
    · show clock w1.tick = clock w.tick
      rw [htick]
  · have hge : 60 ≤ |clock w1.tick - last.submitted_at| / oneDay := by
      rw [htick]
      rw [daysBetween_instant] at hage
      simpa [JsNum.ge] using hage
    have h := saveCVSubmission_eligible tz clock w w1 body cvType company last hv hco hlast hge
    refine ⟨_, _, h, by rw [h]; rfl, ?_, rfl, rfl, rfl, rfl, w.tick + 1, Nat.le_succ _, ?_, ?_⟩
    · show w1.cv_submissions ++ _ = _
      rw [hsub]
    · show w.tick + 1 < w1.tick + 1 + 1
      omega
    · show clock (w1.tick + 1) = clock (w.tick + 1)
      rw [htick]

/-- Instance: a submit exactly 60 days after the last submission of the pair. -/
theorem saveCVSubmission_commit_witness :
    ∃ (row : Submission) (w2 : World),
      saveCVSubmission utcZone frozenClock (worldWithSubmission (march1 - 60 * 86400000))
          sampleBody
        = (.created row (companyView ⟨1, some "acme.example", none, some "acme.example"⟩), w2) ∧
      (saveCVSubmission utcZone frozenClock (worldWithSubmission (march1 - 60 * 86400000))
          sampleBody).1.status = 201 ∧
      w2.cv_submissions = (worldWithSubmission (march1 - 60 * 86400000)).cv_submissions ++ [row] ∧
      w2.companies = (worldWithSubmission (march1 - 60 * 86400000)).companies ∧
      row.company_id = 1 ∧ row.cv_type = "english" ∧
      row.job_title = (if truthy sampleBody.jobTitle then sampleBody.jobTitle else none) ∧
      (∃ i, (worldWithSubmission (march1 - 60 * 86400000)).tick ≤ i ∧ i < w2.tick ∧
        row.submitted_at = frozenClock i) :=
  saveCVSubmission_commit utcZone frozenClock (worldWithSubmission (march1 - 60 * 86400000))
    (worldWithSubmission (march1 - 60 * 86400000)) sampleBody "english"
    ⟨1, some "acme.example", none, some "acme.example"⟩
    ⟨Or.inl (by decide), rfl, Or.inl rfl⟩ rfl
    (Or.inr ⟨⟨1, 1, "english", march1 - 60 * 86400000, some "Engineer"⟩, by decide, by decide⟩)


/-! ## Repeated submissions for one fresh pair -/

theorem getOrCreateCompany_found (w : World) (domain linkedinUrl companyName : Option String)
    (company : Company) (hid : truthy domain = true ∨ truthy linkedinUrl = true)
    (hone : w.companies.filter (companyMatches domain linkedinUrl) = [company]) :
    getOrCreateCompany w domain linkedinUrl companyName = .ok (company, w) := by
  have h1 : (!truthy domain && !truthy linkedinUrl) = false := by
    rcases hid with h | h <;> simp [h]
  unfold getOrCreateCompany findCompany
  simp only [h1, hone]
  rfl

theorem getLatestCVSubmission_single (subs : List Submission) (row : Submission)
    (w : World) (hw : w.cv_submissions = subs ++ [row])
    (hold : ∀ s ∈ subs, s.company_id ≠ row.company_id) :
    getLatestCVSubmission w row.company_id row.cv_type = some row := by
  have hf : w.cv_submissions.filter
      (fun s => s.company_id == row.company_id && s.cv_type == row.cv_type) = [row] := by
    rw [hw, List.filter_append]
    have h1 : subs.filter
        (fun s => s.company_id == row.company_id && s.cv_type == row.cv_type) = [] := by
      rw [List.filter_eq_nil_iff]
      intro s hs
      simp [hold s hs]
    rw [h1]
    simp
  unfold getLatestCVSubmission orderBySubmittedAtDesc
  rw [hf]
  rfl

/-- Once the pair has a submission that stays younger than 60 days on every
clock reading, each further submit call of the run is refused and the tables
stay as they are. -/
theorem submitAll_refused (tz : TimeZone) (clock : Nat → Int) (domain : String)
    (linkedinUrl : Option String) (cvType : String) (company : Company) (last : Submission)
    (hd : truthy (some domain) = true) (hty : cvType = "english" ∨ cvType = "german")
    (hyoung : ∀ j, |clock j - last.submitted_at| / oneDay < 60)
    (bodies : List RequestBody)
    (hb : ∀ b ∈ bodies, b.domain = some domain ∧ b.linkedinUrl = linkedinUrl ∧
      b.cvType = some cvType) :
    ∀ w : World,
      w.companies.filter (companyMatches (some domain) linkedinUrl) = [company] →
      getLatestCVSubmission w company.id cvType = some last →
      (submitAll tz clock w bodies).2.companies = w.companies ∧
      (submitAll tz clock w bodies).2.cv_submissions = w.cv_submissions ∧
      (submitAll tz clock w bodies).1.length = bodies.length ∧
      ∀ r ∈ (submitAll tz clock w bodies).1,
        r.status = 400 ∧
        ∃ daysRemaining nextAvailableDate,
          r = .cooldownActive daysRemaining nextAvailableDate last.submitted_at last.job_title := by
  induction bodies with
  | nil =>
    intro w _ _
    refine ⟨rfl, rfl, rfl, ?_⟩
    intro r hr
    cases hr
  | cons b rest ih =>
    intro w hone hlast
    obtain ⟨hbd, hbl, hbt⟩ := hb b (List.mem_cons_self _ _)
    have hv : b.valid cvType := ⟨Or.inl (by rw [hbd]; exact hd), hbt, hty⟩
    have hco : getOrCreateCompany w b.domain b.linkedinUrl b.companyName = .ok (company, w) := by
      rw [hbd, hbl]
      exact getOrCreateCompany_found w _ _ _ company (Or.inl hd) hone
    have hstep := saveCVSubmission_refused tz clock w w b cvType company last hv hco hlast
      (hyoung w.tick)
    have ih1 := ih (fun b1 h1 => hb b1 (List.mem_cons_of_mem _ h1))
      { w with tick := w.tick + 1 + 1 } hone hlast
    obtain ⟨i1, i2, i3, i4⟩ := ih1
    have hrun : submitAll tz clock w (b :: rest) =
        ((saveCVSubmission tz clock w b).1 ::
            (submitAll tz clock (saveCVSubmission tz clock w b).2 rest).1,
          (submitAll tz clock (saveCVSubmission tz clock w b).2 rest).2) := rfl
    rw [hrun, hstep]
    refine ⟨i1, i2, ?_, ?_⟩
    · show _ + 1 = _ + 1
      rw [i3]
    · intro r hr
      rcases List.mem_cons.mp hr with h | h
      · rw [h]
        exact ⟨rfl, _, _, rfl⟩
      · exact i4 r h

/-- C2: for every N >= 1, N submit calls executed one at a time for the same
(domain, cvType) pair that matches no Company row, all within 60 days of the
first, add exactly one Company row and exactly one Submission row; the first
call is answered 201 and each of the other N - 1 calls the 400 cooldown
refusal that cites the first submission. -/
theorem submitAll_race (tz : TimeZone) (clock : Nat → Int) (w0 : World) (domain : String)
    (linkedinUrl : Option String) (cvType : String) (first : RequestBody)
    (others : List RequestBody)
    (hd : truthy (some domain) = true) (hty : cvType = "english" ∨ cvType = "german")
    (hb : ∀ b ∈ first :: others, b.domain = some domain ∧ b.linkedinUrl = linkedinUrl ∧
      b.cvType = some cvType)
    (hno : w0.companies.filter (companyMatches (some domain) linkedinUrl) = [])
    (hwf : w0.wellFormed)
    (hclock : ∀ j, |clock j - clock w0.tick| / oneDay < 60) :
    ∃ (company : Company) (row : Submission) (rest : List Response),
      submitAll tz clock w0 (first :: others) =
        (.created row (companyView company) :: rest,
          (submitAll tz clock w0 (first :: others)).2) ∧
      (submitAll tz clock w0 (first :: others)).2.companies = w0.companies ++ [company] ∧
      (submitAll tz clock w0 (first :: others)).2.cv_submissions = w0.cv_submissions ++ [row] ∧
      company.domain = some domain ∧ row.company_id = company.id ∧ row.cv_type = cvType ∧
      (Response.created row (companyView company)).status = 201 ∧
      rest.length = others.length ∧
      ∀ r ∈ rest, r.status = 400 ∧
        ∃ daysRemaining nextAvailableDate,
          r = .cooldownActive daysRemaining nextAvailableDate row.submitted_at row.job_title := by
  obtain ⟨hfd, hfl, hft⟩ := hb first (List.mem_cons_self _ _)
  obtain ⟨fd, fl, ft, companyName, jobTitle⟩ := first
  simp only at hfd hfl hft
  have hfl2 := hfl.symm
  subst hfd hfl2 hft
  have hv : RequestBody.valid ⟨some domain, linkedinUrl, some cvType, companyName, jobTitle⟩
      cvType := ⟨Or.inl hd, rfl, hty⟩
  have hdom : orNull (some domain) = some domain := by
    unfold orNull
    rw [if_pos hd]
  have hco : getOrCreateCompany w0 (some domain) linkedinUrl companyName =
      .ok (createCompany w0 (some domain) (orNull linkedinUrl)
        (jsOr companyName (jsOr (some domain) linkedinUrl))) := by
    have h := getOrCreateCompany_no_match w0 (some domain) linkedinUrl companyName (Or.inl hd) hno
    rw [hdom] at h
    exact h
  generalize jsOr companyName (jsOr (some domain) linkedinUrl) = name at hco
  have hnone : getLatestCVSubmission (createCompany w0 (some domain) (orNull linkedinUrl) name).2
      w0.companySeq cvType = none :=
    getLatestCVSubmission_none_of_forall _ w0.companySeq cvType
      (fun s hs => Nat.ne_of_lt (hwf.2 s hs))
  have hstep := saveCVSubmission_first tz clock w0
    (createCompany w0 (some domain) (orNull linkedinUrl) name).2
    ⟨some domain, linkedinUrl, some cvType, companyName, jobTitle⟩ cvType
    (createCompany w0 (some domain) (orNull linkedinUrl) name).1 hv hco hnone
  generalize hbody : (⟨some domain, linkedinUrl, some cvType, companyName, jobTitle⟩ : RequestBody)
    = first at hstep hb
  have hrun : submitAll tz clock w0 (first :: others) =
      ((saveCVSubmission tz clock w0 first).1 ::
          (submitAll tz clock (saveCVSubmission tz clock w0 first).2 others).1,
        (submitAll tz clock (saveCVSubmission tz clock w0 first).2 others).2) := rfl
  have hone : (w0.companies ++
      [(createCompany w0 (some domain) (orNull linkedinUrl) name).1]).filter
        (companyMatches (some domain) linkedinUrl) =
      [(createCompany w0 (some domain) (orNull linkedinUrl) name).1] := by
    rw [List.filter_append, hno]
    simp [companyMatches, hd, createCompany]
  have hrest := submitAll_refused tz clock domain linkedinUrl cvType
    (createCompany w0 (some domain) (orNull linkedinUrl) name).1
    ⟨w0.submissionSeq, w0.companySeq, cvType, clock w0.tick, orNull first.jobTitle⟩
    hd hty hclock others (fun b h => hb b (List.mem_cons_of_mem _ h))
    (saveCVSubmission tz clock w0 first).2
    (by rw [hstep]; exact hone)
    (by
      rw [hstep]
      exact getLatestCVSubmission_single w0.cv_submissions
        ⟨w0.submissionSeq, w0.companySeq, cvType, clock w0.tick, orNull first.jobTitle⟩ _ rfl
        (fun s hs => Nat.ne_of_lt (hwf.2 s hs)))
  obtain ⟨r1, r2, r3, r4⟩ := hrest
  refine ⟨(createCompany w0 (some domain) (orNull linkedinUrl) name).1,
    ⟨w0.submissionSeq, w0.companySeq, cvType, clock w0.tick, orNull first.jobTitle⟩,
    (submitAll tz clock (saveCVSubmission tz clock w0 first).2 others).1,
    ?_, ?_, ?_, rfl, rfl, rfl, rfl, r3, r4⟩
  · rw [hrun]
    congr 2
    rw [hstep]
    rfl
  · rw [hrun]
    show (submitAll tz clock (saveCVSubmission tz clock w0 first).2 others).2.companies = _
    rw [r1, hstep]
    rfl
  · rw [hrun]
    show (submitAll tz clock (saveCVSubmission tz clock w0 first).2 others).2.cv_submissions = _
    rw [r2, hstep]
    rfl

/-- Instance: three submit calls for one fresh domain on the empty store. -/
theorem submitAll_race_witness :
    ∃ (company : Company) (row : Submission) (rest : List Response),
      submitAll utcZone frozenClock emptyWorld [sampleBody, sampleBody, sampleBody] =
        (.created row (companyView company) :: rest,
          (submitAll utcZone frozenClock emptyWorld [sampleBody, sampleBody, sampleBody]).2) ∧
      (submitAll utcZone frozenClock emptyWorld [sampleBody, sampleBody, sampleBody]).2.companies
        = emptyWorld.companies ++ [company] ∧
      (submitAll utcZone frozenClock emptyWorld
        [sampleBody, sampleBody, sampleBody]).2.cv_submissions
        = emptyWorld.cv_submissions ++ [row] ∧
      company.domain = some "acme.example" ∧ row.company_id = company.id ∧
      row.cv_type = "english" ∧
      (Response.created row (companyView company)).status = 201 ∧
      rest.length = [sampleBody, sampleBody].length ∧
      ∀ r ∈ rest, r.status = 400 ∧
        ∃ daysRemaining nextAvailableDate,
          r = .cooldownActive daysRemaining nextAvailableDate row.submitted_at row.job_title :=
  submitAll_race utcZone frozenClock emptyWorld "acme.example" none "english" sampleBody
    [sampleBody, sampleBody] (by decide) (Or.inl rfl)
    (by
      intro b hb
      have : b = sampleBody := by
        simp only [List.mem_cons, List.mem_singleton, List.not_mem_nil, or_false, or_self] at hb
        exact hb
      rw [this]
      exact ⟨rfl, rfl, rfl⟩)
    rfl
    (by constructor <;> intro x hx <;> cases hx)
    (by intro j; simp [frozenClock, oneDay])

/-! ## Identity resolution: `findCompany` and `getOrCreateCompany` -/

/-- The row `getOrCreateCompany` inserts for an identity matches that identity. -/
theorem companyMatches_created (seq : Nat) (domain linkedinUrl name : Option String)
    (hid : truthy domain = true ∨ truthy linkedinUrl = true) :
    companyMatches domain linkedinUrl ⟨seq, orNull domain, orNull linkedinUrl, name⟩ = true := by
  unfold companyMatches orNull
  rcases hid with h | h
  · simp [h]
  · simp [h]

/-- With two or more matching rows the `.single()` read ends in `PGRST116`,
which `findCompany` reports as no row. -/
theorem findCompany_many (w : World) (domain linkedinUrl : Option String)
    (hid : truthy domain = true ∨ truthy linkedinUrl = true)
    (hmany : 2 ≤ (w.companies.filter (companyMatches domain linkedinUrl)).length) :
    findCompany w domain linkedinUrl = .ok none := by
  have h1 : (!truthy domain && !truthy linkedinUrl) = false := by
    rcases hid with h | h <;> simp [h]
  unfold findCompany
  simp only [h1]
  match hl : w.companies.filter (companyMatches domain linkedinUrl), hmany with
  | x :: y :: rest, _ => rfl
  | [x], h => simp at h
  | [], h => simp at h

/-- C13: with the domain matching one row and the linkedinUrl another,
`findCompany` throws nothing and returns `null`, as for an identity never
seen, and `getOrCreateCompany` goes on to insert a third row. -/
theorem findCompany_two_matches :
    (splitIdentityWorld.companies.filter
        (companyMatches (some "acme.example") (some "linkedin.example/acme"))).length = 2
      ∧ findCompany splitIdentityWorld (some "acme.example") (some "linkedin.example/acme")
          = .ok none
      ∧ getOrCreateCompany splitIdentityWorld (some "acme.example")
          (some "linkedin.example/acme") none
          = .ok (⟨3, some "acme.example", some "linkedin.example/acme", some "acme.example"⟩,
              { splitIdentityWorld with
                companies := splitIdentityWorld.companies ++
                  [⟨3, some "acme.example", some "linkedin.example/acme", some "acme.example"⟩],
                companySeq := 4 }) := by
  refine ⟨by decide, rfl, rfl⟩

/-- C12: from the empty store, three calls of `getOrCreateCompany` (a domain,
a linkedinUrl, then both together) leave three rows, of which the first and
the third share the domain and the second and the third the linkedin_url. -/
theorem getOrCreateAll_duplicates :
    (getOrCreateAll emptyWorld
        [(some "acme.example", none, none), (none, some "linkedin.example/acme", none),
         (some "acme.example", some "linkedin.example/acme", none)]).2.companies
      = [⟨1, some "acme.example", none, some "acme.example"⟩,
         ⟨2, none, some "linkedin.example/acme", some "linkedin.example/acme"⟩,
         ⟨3, some "acme.example", some "linkedin.example/acme", some "acme.example"⟩]
    ∧ ¬ ((getOrCreateAll emptyWorld
        [(some "acme.example", none, none), (none, some "linkedin.example/acme", none),
         (some "acme.example", some "linkedin.example/acme", none)]).2.companies.Pairwise
          (fun a b => (a.domain ≠ none → a.domain ≠ b.domain) ∧
            (a.linkedin_url ≠ none → a.linkedin_url ≠ b.linkedin_url))) := by
  constructor
  · rfl
  · have h : (getOrCreateAll emptyWorld
        [(some "acme.example", none, none), (none, some "linkedin.example/acme", none),
         (some "acme.example", some "linkedin.example/acme", none)]).2.companies
      = [⟨1, some "acme.example", none, some "acme.example"⟩,
         ⟨2, none, some "linkedin.example/acme", some "linkedin.example/acme"⟩,
         ⟨3, some "acme.example", some "linkedin.example/acme", some "acme.example"⟩] := rfl
    rw [h]
    intro hp
    have h13 := (List.pairwise_cons.mp hp).1
      ⟨3, some "acme.example", some "linkedin.example/acme", some "acme.example"⟩ (by simp)
    exact h13.1 (by simp) rfl

/-- C11 (as stated) fails on a store where the domain matches one row and the
linkedinUrl another: two calls in succession with that identity insert a row
each and return the ids 3 and 4. -/
theorem getOrCreateCompany_twice_counterexample :
    (getOrCreateAll splitIdentityWorld
        [(some "acme.example", some "linkedin.example/acme", none),
         (some "acme.example", some "linkedin.example/acme", none)]).1.map
          (fun r => match r with
            | .ok c => some c.id
            | .error _ => none)
      = [some 3, some 4]
    ∧ (getOrCreateAll splitIdentityWorld
        [(some "acme.example", some "linkedin.example/acme", none),
         (some "acme.example", some "linkedin.example/acme", none)]).2.companies.length
      = splitIdentityWorld.companies.length + 2 := by
  constructor
  · rfl
  · rfl

/-- C11 (amended): for every store state in which at most one Company row
matches the identity, and every identity with a field present, two calls of
`getOrCreateCompany` in succession with that identity return the same record
(so the same company id), the second call leaves the store as the first left
it, and the pair inserts at most one row. -/
theorem getOrCreateCompany_idempotent (w : World)
    (domain linkedinUrl companyName companyName2 : Option String)
    (hid : truthy domain = true ∨ truthy linkedinUrl = true)
    (hone : (w.companies.filter (companyMatches domain linkedinUrl)).length ≤ 1) :
    ∃ (company : Company) (w1 : World),
      getOrCreateCompany w domain linkedinUrl companyName = .ok (company, w1) ∧
      getOrCreateCompany w1 domain linkedinUrl companyName2 = .ok (company, w1) ∧
      (w1.companies = w.companies ∨ w1.companies = w.companies ++ [company]) := by
  match hl : w.companies.filter (companyMatches domain linkedinUrl), hone with
  | [], _ =>
    refine ⟨_, _, getOrCreateCompany_no_match w domain linkedinUrl companyName hid hl, ?_,
      Or.inr rfl⟩
    apply getOrCreateCompany_found _ domain linkedinUrl companyName2 _ hid
    show (w.companies ++ _).filter _ = _
    rw [List.filter_append, hl]
    simp [companyMatches_created w.companySeq domain linkedinUrl _ hid]
  | [c], _ =>
    exact ⟨c, w, getOrCreateCompany_found w domain linkedinUrl companyName c hid hl,
      getOrCreateCompany_found w domain linkedinUrl companyName2 c hid hl, Or.inl rfl⟩
  | x :: y :: rest, h => simp at h

/-- Instance: a domain on the empty store is created by the first call and
found by the second. -/
theorem getOrCreateCompany_idempotent_witness :
    ∃ (company : Company) (w1 : World),
      getOrCreateCompany emptyWorld (some "acme.example") none none = .ok (company, w1) ∧
      getOrCreateCompany w1 (some "acme.example") none (some "Acme") = .ok (company, w1) ∧
      (w1.companies = emptyWorld.companies ∨
        w1.companies = emptyWorld.companies ++ [company]) :=
  getOrCreateCompany_idempotent emptyWorld (some "acme.example") none none (some "Acme")
    (Or.inl (by decide)) (by decide)
/-! ## Deletion -/

/-- With distinct ids, the rows of a given id are exactly the row carrying it. -/
theorem filter_id_eq_singleton (l : List Company) (c : Company) (hc : c ∈ l)
    (hnodup : (l.map Company.id).Nodup) :
    l.filter (fun x => x.id == c.id) = [c] := by
  induction l with
  | nil => cases hc
  | cons x xs ih =>
    rw [List.map_cons, List.nodup_cons] at hnodup
    rcases List.mem_cons.mp hc with h | h
    · subst h
      have hrest : xs.filter (fun x => x.id == c.id) = [] := by
        rw [List.filter_eq_nil_iff]
        intro y hy hyc
        exact hnodup.1 (List.mem_map.mpr ⟨y, hy, by simpa using hyc⟩)
      simp [List.filter_cons, hrest]
    · have hne : (x.id == c.id) = false := by
        rw [beq_eq_false_iff_ne]
        intro heq
        exact hnodup.1 (List.mem_map.mpr ⟨c, h, heq.symm⟩)
      rw [List.filter_cons, hne]
      exact ih h hnodup.2

theorem deleteCompanyById_absent (w : World) (companyId : Nat)
    (habs : ∀ c ∈ w.companies, c.id ≠ companyId) :
    deleteCompanyById w companyId = (.error pgrst116Message, w) := by
  have hf : w.companies.filter (fun c => c.id == companyId) = [] := by
    rw [List.filter_eq_nil_iff]
    intro c hc
    simpa using habs c hc
  unfold deleteCompanyById
  rw [hf]
  rfl

/-- C14: for a company present in a store whose company ids are distinct,
`deleteCompanyById(id)` returns the row as it was and leaves exactly the
Company rows of another id and the Submission rows of another company_id, all
unchanged and in order; deleting the same id again, or any absent id, fails
with the no-row error (`PGRST116`) and leaves the store unchanged. -/
theorem deleteCompanyById_spec (w : World) (company : Company)
    (hc : company ∈ w.companies) (hnodup : (w.companies.map Company.id).Nodup) :
    ∃ w1 : World,
      deleteCompanyById w company.id = (.ok company, w1) ∧
      (∀ c, c ∈ w1.companies ↔ c ∈ w.companies ∧ c.id ≠ company.id) ∧
      (∀ s, s ∈ w1.cv_submissions ↔ s ∈ w.cv_submissions ∧ s.company_id ≠ company.id) ∧
      w1.companies.Sublist w.companies ∧ w1.cv_submissions.Sublist w.cv_submissions ∧
      deleteCompanyById w1 company.id = (.error pgrst116Message, w1) ∧
      (∀ absent : Nat, (∀ c ∈ w.companies, c.id ≠ absent) →
        deleteCompanyById w absent = (.error pgrst116Message, w)) := by
  have hf := filter_id_eq_singleton w.companies company hc hnodup
  have hdel : deleteCompanyById w company.id =
      (.ok company,
        { w with cv_submissions :=
                   w.cv_submissions.filter (fun s => !(s.company_id == company.id)),
                 companies := w.companies.filter (fun c => !(c.id == company.id)) }) := by
    unfold deleteCompanyById
    rw [hf]
    rfl
  refine ⟨_, hdel, ?_, ?_, List.filter_sublist _, List.filter_sublist _, ?_,
    fun absent h => deleteCompanyById_absent w absent h⟩
  · intro c
    show c ∈ w.companies.filter _ ↔ _
    simp [List.mem_filter]
  · intro s
    show s ∈ w.cv_submissions.filter _ ↔ _
    simp [List.mem_filter]
  · apply deleteCompanyById_absent
    intro c hc1
    have : c ∈ w.companies.filter (fun c => !(c.id == company.id)) := hc1
    simpa [List.mem_filter] using (List.mem_filter.mp this).2

/-- Instance: deleting the company of a store with one company and one
submission empties both tables. -/
theorem deleteCompanyById_spec_witness :
    ∃ w1 : World,
      deleteCompanyById (worldWithSubmission march1) 1
        = (.ok ⟨1, some "acme.example", none, some "acme.example"⟩, w1) ∧
      (∀ c, c ∈ w1.companies ↔ c ∈ (worldWithSubmission march1).companies ∧ c.id ≠ 1) ∧
      (∀ s, s ∈ w1.cv_submissions ↔
        s ∈ (worldWithSubmission march1).cv_submissions ∧ s.company_id ≠ 1) ∧
      w1.companies.Sublist (worldWithSubmission march1).companies ∧
      w1.cv_submissions.Sublist (worldWithSubmission march1).cv_submissions ∧
      deleteCompanyById w1 1 = (.error pgrst116Message, w1) ∧
      (∀ absent : Nat, (∀ c ∈ (worldWithSubmission march1).companies, c.id ≠ absent) →
        deleteCompanyById (worldWithSubmission march1) absent
          = (.error pgrst116Message, worldWithSubmission march1)) :=
  deleteCompanyById_spec (worldWithSubmission march1)
    ⟨1, some "acme.example", none, some "acme.example"⟩ (by decide) (by decide)

/-! ## Validation -/

/-- C15: when both identity fields are absent or empty, or cvType is not
exactly `english` or `german`, check and submit both answer 400 and leave the
store (and the clock) as they were. -/
theorem validation_rejects (tz : TimeZone) (clock : Nat → Int) (w : World) (body : RequestBody)
    (hbad : (truthy body.domain = false ∧ truthy body.linkedinUrl = false) ∨
      (body.cvType ≠ some "english" ∧ body.cvType ≠ some "german")) :
    (∃ e, checkCVEligibility tz clock w body = (.validationError e, w)) ∧
    (∃ e, saveCVSubmission tz clock w body = (.validationError e, w)) ∧
    (checkCVEligibility tz clock w body).1.status = 400 ∧
    (saveCVSubmission tz clock w body).1.status = 400 := by
  have key : (∃ e, checkCVEligibility tz clock w body = (.validationError e, w)) ∧
      (∃ e, saveCVSubmission tz clock w body = (.validationError e, w)) := by
    by_cases h1 : (!truthy body.domain && !truthy body.linkedinUrl) = true
    · constructor
      · exact ⟨"Either domain or linkedinUrl must be provided",
          by unfold checkCVEligibility; simp only [h1, if_true]⟩
      · exact ⟨"Either domain or linkedinUrl must be provided",
          by unfold saveCVSubmission; simp only [h1, if_true]⟩
    · have hcv : body.cvType ≠ some "english" ∧ body.cvType ≠ some "german" := by
        rcases hbad with ⟨hd, hl⟩ | h
        · exact absurd (by simp [hd, hl]) h1
        · exact h
      cases hcvt : body.cvType with
      | none =>
        constructor
        · exact ⟨"cvType must be either \"english\" or \"german\"",
            by unfold checkCVEligibility; simp [h1, hcvt]⟩
        · exact ⟨"cvType must be either \"english\" or \"german\"",
            by unfold saveCVSubmission; simp [h1, hcvt]⟩
      | some cvType =>
        have h2 : cvType ≠ "english" ∧ cvType ≠ "german" := by
          rw [hcvt] at hcv
          exact ⟨fun h => hcv.1 (by rw [h]), fun h => hcv.2 (by rw [h])⟩
        constructor
        · exact ⟨"cvType must be either \"english\" or \"german\"",
            by unfold checkCVEligibility; simp [h1, hcvt, h2]⟩
        · exact ⟨"cvType must be either \"english\" or \"german\"",
            by unfold saveCVSubmission; simp [h1, hcvt, h2]⟩
  obtain ⟨⟨e1, he1⟩, ⟨e2, he2⟩⟩ := key
  exact ⟨⟨e1, he1⟩, ⟨e2, he2⟩, by rw [he1]; rfl, by rw [he2]; rfl⟩

/-- Instance: a request with a valid identity and the cvType `french`. -/
theorem validation_rejects_witness :
    (∃ e, checkCVEligibility utcZone frozenClock emptyWorld
        { sampleBody with cvType := some "french" } = (.validationError e, emptyWorld)) ∧
    (∃ e, saveCVSubmission utcZone frozenClock emptyWorld
        { sampleBody with cvType := some "french" } = (.validationError e, emptyWorld)) ∧
    (checkCVEligibility utcZone frozenClock emptyWorld
        { sampleBody with cvType := some "french" }).1.status = 400 ∧
    (saveCVSubmission utcZone frozenClock emptyWorld
        { sampleBody with cvType := some "french" }).1.status = 400 :=
  validation_rejects utcZone frozenClock emptyWorld { sampleBody with cvType := some "french" }
    (Or.inr ⟨by decide, by decide⟩)
/-! ## Seeding -/

/-- C18: when the batch is missing or not an array, empty, or has at any
position an entry with neither domain nor linkedin_url, seed answers 400 and
leaves the store as it was: no row is written for any entry, the valid entries
before the invalid one included. -/
theorem seedInitialCompanies_rejects (w : World) (companies : Option (List SeedEntry))
    (hbad : companies = none ∨ companies = some [] ∨
      ∃ batch, companies = some batch ∧
        ∃ entry ∈ batch, truthy entry.domain = false ∧ truthy entry.linkedin_url = false) :
    (∃ e, seedInitialCompanies w companies = (.badRequest e, w)) ∧
    (seedInitialCompanies w companies).1.status = 400 := by
  have key : ∃ e, seedInitialCompanies w companies = (.badRequest e, w) := by
    rcases hbad with h | h | ⟨batch, h, entry, hmem, hd, hl⟩
    · subst h
      exact ⟨"companies array is required and must not be empty", rfl⟩
    · subst h
      exact ⟨"companies array is required and must not be empty", rfl⟩
    · subst h
      cases batch with
      | nil => cases hmem
      | cons first others =>
        have hany : (first :: others).any
            (fun entry => !truthy entry.domain && !truthy entry.linkedin_url) = true := by
          rw [List.any_eq_true]
          exact ⟨entry, hmem, by simp [hd, hl]⟩
        refine ⟨"Each company must have at least a domain or linkedin_url", ?_⟩
        unfold seedInitialCompanies
        simp only [hany, if_true]
  obtain ⟨e, he⟩ := key
  exact ⟨⟨e, he⟩, by rw [he]; rfl⟩

/-- Instance: a valid entry followed by one without identity. -/
theorem seedInitialCompanies_rejects_witness :
    (∃ e, seedInitialCompanies emptyWorld (some [sampleEntry, ⟨some "Nameless", none, some ""⟩])
        = (.badRequest e, emptyWorld)) ∧
    (seedInitialCompanies emptyWorld
        (some [sampleEntry, ⟨some "Nameless", none, some ""⟩])).1.status = 400 :=
  seedInitialCompanies_rejects emptyWorld (some [sampleEntry, ⟨some "Nameless", none, some ""⟩])
    (Or.inr (Or.inr ⟨_, rfl, ⟨some "Nameless", none, some ""⟩, by simp, by decide, by decide⟩))

theorem seedCompanies_single_fresh (w : World) (entry : SeedEntry)
    (hid : truthy entry.domain = true ∨ truthy entry.linkedin_url = true)
    (hno : w.companies.filter (companyMatches entry.domain entry.linkedin_url) = []) :
    seedCompanies w [entry] =
      (.ok [⟨⟨w.companySeq, entry.domain, entry.linkedin_url, entry.name⟩, .created⟩],
        { w with companies := w.companies ++
                   [⟨w.companySeq, entry.domain, entry.linkedin_url, entry.name⟩],
                 companySeq := w.companySeq + 1 }) := by
  unfold seedCompanies
  rw [findCompany_no_match w entry.domain entry.linkedin_url hid hno]
  rfl

theorem findCompany_one (w : World) (domain linkedinUrl : Option String) (company : Company)
    (hid : truthy domain = true ∨ truthy linkedinUrl = true)
    (hone : w.companies.filter (companyMatches domain linkedinUrl) = [company]) :
    findCompany w domain linkedinUrl = .ok (some company) := by
  have h1 : (!truthy domain && !truthy linkedinUrl) = false := by
    rcases hid with h | h <;> simp [h]
  unfold findCompany
  simp only [h1, hone]
  rfl

theorem seedCompanies_single_existing (w : World) (entry : SeedEntry) (company : Company)
    (hid : truthy entry.domain = true ∨ truthy entry.linkedin_url = true)
    (hone : w.companies.filter (companyMatches entry.domain entry.linkedin_url) = [company]) :
    seedCompanies w [entry] = (.ok [⟨company, .existing⟩], w) := by
  unfold seedCompanies
  rw [findCompany_one w entry.domain entry.linkedin_url company hid hone]
  rfl

/-- C19: for an entry of a domain whose identity matches no Company row of the
store, seeding it in one batch and again in a second batch tags it `created`
the first time and `existing`, with the same row, the second time, and the
store then holds exactly one Company row of that domain; whatever the batch, a
result is tagged `created` or `existing`. -/
theorem seedCompanies_twice (w : World) (first second : SeedEntry) (domain : String)
    (hd : truthy (some domain) = true)
    (h1 : first.domain = some domain) (h2 : second.domain = some domain)
    (hl : second.linkedin_url = first.linkedin_url)
    (hno : w.companies.filter (companyMatches first.domain first.linkedin_url) = []) :
    ∃ (row : Company) (w1 : World),
      seedCompanies w [first] = (.ok [⟨row, .created⟩], w1) ∧
      seedCompanies w1 [second] = (.ok [⟨row, .existing⟩], w1) ∧
      w1.companies = w.companies ++ [row] ∧
      (w1.companies.filter (fun c => c.domain == some domain)).length = 1 ∧
      ∀ r : SeedResult, r.status = .created ∨ r.status = .existing := by
  have hid1 : truthy first.domain = true ∨ truthy first.linkedin_url = true :=
    Or.inl (by rw [h1]; exact hd)
  have hid2 : truthy second.domain = true ∨ truthy second.linkedin_url = true :=
    Or.inl (by rw [h2]; exact hd)
  have hold : w.companies.filter (fun c => c.domain == some domain) = [] := by
    rw [List.filter_eq_nil_iff]
    intro c hc hdom
    have hm : companyMatches first.domain first.linkedin_url c = true := by
      unfold companyMatches
      rw [h1, hd]
      simp only [Bool.true_and, Bool.or_eq_true]
      exact Or.inl hdom
    have hin : c ∈ w.companies.filter (companyMatches first.domain first.linkedin_url) :=
      List.mem_filter.mpr ⟨hc, hm⟩
    rw [hno] at hin
    cases hin
  refine ⟨⟨w.companySeq, first.domain, first.linkedin_url, first.name⟩, _,
    seedCompanies_single_fresh w first hid1 hno, ?_, rfl, ?_, ?_⟩
  · apply seedCompanies_single_existing _ second _ hid2
    show (w.companies ++ _).filter _ = _
    rw [List.filter_append, h2, hl, ← h1, hno]
    simp [companyMatches, h1, hd]
  · show ((w.companies ++ _).filter _).length = 1
    rw [List.filter_append, hold, h1]
    simp
  · intro r
    cases r.status
    · exact Or.inl rfl
    · exact Or.inr rfl

/-- Instance: the domain `acme.example` seeded twice on the empty store. -/
theorem seedCompanies_twice_witness :
    ∃ (row : Company) (w1 : World),
      seedCompanies emptyWorld [sampleEntry] = (.ok [⟨row, .created⟩], w1) ∧
      seedCompanies w1 [sampleEntry] = (.ok [⟨row, .existing⟩], w1) ∧
      w1.companies = emptyWorld.companies ++ [row] ∧
      (w1.companies.filter (fun c => c.domain == some "acme.example")).length = 1 ∧
      ∀ r : SeedResult, r.status = .created ∨ r.status = .existing :=
  seedCompanies_twice emptyWorld sampleEntry sampleEntry "acme.example" (by decide) rfl rfl rfl rfl

/-- On a batch whose entries all carry an identity, `seedCompanies` returns one
result per entry. -/
theorem seedCompanies_valid (batch : List SeedEntry) :
    ∀ w : World,
      (∀ entry ∈ batch, truthy entry.domain = true ∨ truthy entry.linkedin_url = true) →
      ∃ results w1, seedCompanies w batch = (.ok results, w1) ∧
        results.length = batch.length := by
  induction batch with
  | nil => intro w _; exact ⟨[], w, rfl, rfl⟩
  | cons entry rest ih =>
    intro w hvalid
    have hid := hvalid entry (List.mem_cons_self _ _)
    have h1 : (!truthy entry.domain && !truthy entry.linkedin_url) = false := by
      rcases hid with h | h <;> simp [h]
    have hrest := fun w2 => ih w2 (fun e he => hvalid e (List.mem_cons_of_mem _ he))
    cases hf : findCompany w entry.domain entry.linkedin_url with
    | error e =>
      unfold findCompany at hf
      simp only [h1] at hf
      cases hf
    | ok found =>
      cases found with
      | some existing =>
        obtain ⟨results, w1, hr, hlen⟩ := hrest w
        refine ⟨⟨existing, .existing⟩ :: results, w1, ?_, by simp [hlen]⟩
        unfold seedCompanies
        simp only [hf, hr]
      | none =>
        obtain ⟨results, w1, hr, hlen⟩ :=
          hrest (createCompany w entry.domain entry.linkedin_url entry.name).2
        refine ⟨⟨(createCompany w entry.domain entry.linkedin_url entry.name).1, .created⟩
          :: results, w1, ?_, by simp [hlen]⟩
        unfold seedCompanies
        simp only [hf, hr]

/-- On every non-empty batch whose entries all carry an identity the seed
handler ends in its `catch`: the reduce over `r.submissions.length` throws. -/
theorem seedInitialCompanies_valid_batch (w : World) (first : SeedEntry)
    (others : List SeedEntry)
    (hvalid : ∀ entry ∈ first :: others,
      truthy entry.domain = true ∨ truthy entry.linkedin_url = true) :
    (seedInitialCompanies w (some (first :: others))).1
      = .serverError "Cannot read properties of undefined (reading length)" := by
  have hany : (first :: others).any
      (fun entry => !truthy entry.domain && !truthy entry.linkedin_url) = false := by
    rw [List.any_eq_false]
    intro entry hmem
    rcases hvalid entry hmem with h | h <;> simp [h]
  obtain ⟨results, w1, hr, hlen⟩ := seedCompanies_valid (first :: others) w hvalid
  cases results with
  | nil => simp at hlen
  | cons r rs =>
    unfold seedInitialCompanies
    simp only [hany, hr]
    rfl

/-- C20: on the batch of the one entry `{ domain: "acme.example" }` the seed
handler inserts the company and then answers 500, not 201: `seedCompanies`
returns rows without a `submissions` property, and computing
`totalSubmissions` from `r.submissions.length` throws. -/
theorem seedInitialCompanies_sample :
    seedInitialCompanies emptyWorld (some [sampleEntry])
      = (.serverError "Cannot read properties of undefined (reading length)",
          { emptyWorld with
            companies := [⟨1, some "acme.example", none, none⟩], companySeq := 2 })
    ∧ (seedInitialCompanies emptyWorld (some [sampleEntry])).1.status = 500
    ∧ (seedInitialCompanies emptyWorld (some [sampleEntry])).1.status ≠ 201 := by
  refine ⟨rfl, rfl, by decide⟩
/-! ## The two CV types have separate timelines -/

theorem getLatestCVSubmission_eq_of {w w2 : World}
    (h : w2.cv_submissions = w.cv_submissions) (companyId : Nat) (cvType : String) :
    getLatestCVSubmission w2 companyId cvType = getLatestCVSubmission w companyId cvType := by
  unfold getLatestCVSubmission
  rw [h]

/-- A row of another cvType does not change the latest submission of a pair. -/
theorem getLatestCVSubmission_append_other {w w2 : World} (row : Submission)
    (h : w2.cv_submissions = w.cv_submissions ++ [row]) (companyId : Nat) (cvType : String)
    (hty : row.cv_type ≠ cvType) :
    getLatestCVSubmission w2 companyId cvType = getLatestCVSubmission w companyId cvType := by
  unfold getLatestCVSubmission
  rw [h, List.filter_append]
  have hrow : [row].filter (fun s => s.company_id == companyId && s.cv_type == cvType) = [] := by
    rw [List.filter_eq_nil_iff]
    intro s hs
    rw [List.mem_singleton.mp hs]
    simp [hty]
  rw [hrow, List.append_nil]

/-- A row of another company does not change the latest submission of a pair. -/
theorem getLatestCVSubmission_append_other_company {w w2 : World} (row : Submission)
    (h : w2.cv_submissions = w.cv_submissions ++ [row]) (companyId : Nat) (cvType : String)
    (hid : row.company_id ≠ companyId) :
    getLatestCVSubmission w2 companyId cvType = getLatestCVSubmission w companyId cvType := by
  unfold getLatestCVSubmission
  rw [h, List.filter_append]
  have hrow : [row].filter (fun s => s.company_id == companyId && s.cv_type == cvType) = [] := by
    rw [List.filter_eq_nil_iff]
    intro s hs
    rw [List.mem_singleton.mp hs]
    simp [hid]
  rw [hrow, List.append_nil]

theorem getOrCreateCompany_many (w : World) (domain linkedinUrl companyName : Option String)
    (hid : truthy domain = true ∨ truthy linkedinUrl = true)
    (hmany : 2 ≤ (w.companies.filter (companyMatches domain linkedinUrl)).length) :
    getOrCreateCompany w domain linkedinUrl companyName =
      .ok (createCompany w (orNull domain) (orNull linkedinUrl)
        (jsOr companyName (jsOr domain linkedinUrl))) := by
  unfold getOrCreateCompany
  rw [findCompany_many w domain linkedinUrl hid hmany]

/-- The decision of a check response is `decisionOf` at the latest submission
of the requested type of the resolved company. -/
theorem checkCVEligibility_decision (tz : TimeZone) (clock : Nat → Int) (w w1 : World)
    (body : RequestBody) (cvType : String) (company : Company)
    (hv : body.valid cvType)
    (hco : getOrCreateCompany w body.domain body.linkedinUrl body.companyName = .ok (company, w1)) :
    (checkCVEligibility tz clock w body).1.decision =
      some (decisionOf clock w1.tick (getLatestCVSubmission w1 company.id cvType)) := by
  cases hlatest : getLatestCVSubmission w1 company.id cvType with
  | none => rw [checkCVEligibility_none tz clock w w1 body cvType company hv hco hlatest]; rfl
  | some last =>
    rw [checkCVEligibility_some tz clock w w1 body cvType company last hv hco hlatest]; rfl

/-- What a submit answered 201 did to the store: one row of the resolved
company and the requested type was appended, after the identity resolution. -/
theorem saveCVSubmission_created (tz : TimeZone) (clock : Nat → Int) (w w1 : World)
    (body : RequestBody) (cvType : String) (company : Company)
    (hv : body.valid cvType)
    (hco : getOrCreateCompany w body.domain body.linkedinUrl body.companyName = .ok (company, w1))
    (hok : (saveCVSubmission tz clock w body).1.status = 201) :
    ∃ row : Submission,
      row.company_id = company.id ∧ row.cv_type = cvType ∧
      (saveCVSubmission tz clock w body).2.companies = w1.companies ∧
      (saveCVSubmission tz clock w body).2.companySeq = w1.companySeq ∧
      (saveCVSubmission tz clock w body).2.cv_submissions = w1.cv_submissions ++ [row] := by
  cases hlatest : getLatestCVSubmission w1 company.id cvType with
  | none =>
    rw [saveCVSubmission_first tz clock w w1 body cvType company hv hco hlatest]
    exact ⟨_, rfl, rfl, rfl, rfl, rfl⟩
  | some last =>
    by_cases hage : 60 ≤ |clock w1.tick - last.submitted_at| / oneDay
    · rw [saveCVSubmission_eligible tz clock w w1 body cvType company last hv hco hlatest hage]
      exact ⟨_, rfl, rfl, rfl, rfl, rfl⟩
    · rw [saveCVSubmission_refused tz clock w w1 body cvType company last hv hco hlatest
        (not_le.mp hage)] at hok
      exact absurd hok (by show (400 : Nat) ≠ 201; decide)

/-- C16: a submit answered 201 for one cvType leaves the decision of check
for the other cvType of the same identity (canGenerateCV, daysRemaining and
lastSubmission) as it was, the clock being read at the same instants; the
store is one with referential integrity. -/
theorem submit_keeps_other_type (tz : TimeZone) (clock : Nat → Int) (w : World)
    (submit check : RequestBody) (submitted other : String)
    (hv1 : submit.valid submitted) (hv2 : check.valid other) (hne : submitted ≠ other)
    (hd : check.domain = submit.domain) (hl : check.linkedinUrl = submit.linkedinUrl)
    (hwf : w.wellFormed)
    (hok : (saveCVSubmission tz clock w submit).1.status = 201) :
    (checkCVEligibility tz clock
        { (saveCVSubmission tz clock w submit).2 with tick := w.tick } check).1.decision
      = (checkCVEligibility tz clock w check).1.decision ∧
    ((checkCVEligibility tz clock w check).1.decision).isSome = true := by
  have hid1 := hv1.1
  have hid2 := hv2.1
  rw [hd, hl] at hid2
  match hf : w.companies.filter (companyMatches submit.domain submit.linkedinUrl) with
  | [c] =>
    -- the identity resolves to the existing company `c`, before and after
    have hco1 := getOrCreateCompany_found w submit.domain submit.linkedinUrl submit.companyName
      c hid1 hf
    have hco0 : getOrCreateCompany w check.domain check.linkedinUrl check.companyName
        = .ok (c, w) := by
      rw [hd, hl]
      exact getOrCreateCompany_found w _ _ _ c hid1 hf
    obtain ⟨row, _, hrt, hcomp, _, hsubs⟩ :=
      saveCVSubmission_created tz clock w w submit submitted c hv1 hco1 hok
    have hco2 : getOrCreateCompany
        { (saveCVSubmission tz clock w submit).2 with tick := w.tick }
        check.domain check.linkedinUrl check.companyName
        = .ok (c, { (saveCVSubmission tz clock w submit).2 with tick := w.tick }) := by
      rw [hd, hl]
      apply getOrCreateCompany_found _ _ _ _ c hid1
      show (saveCVSubmission tz clock w submit).2.companies.filter _ = _
      rw [hcomp, hf]
    rw [checkCVEligibility_decision tz clock _ _ check other c hv2 hco2,
      checkCVEligibility_decision tz clock w w check other c hv2 hco0]
    refine ⟨?_, rfl⟩
    congr 2
    exact getLatestCVSubmission_append_other row hsubs c.id other (by rw [hrt]; exact hne)
  | [] =>
    -- the submit creates the company; the check finds it afterwards
    have hco1 := getOrCreateCompany_no_match w submit.domain submit.linkedinUrl
      submit.companyName hid1 hf
    have hco0 := getOrCreateCompany_no_match w check.domain check.linkedinUrl
      check.companyName hv2.1 (by rw [hd, hl]; exact hf)
    obtain ⟨row, hrc, hrt, hcomp, _, hsubs⟩ :=
      saveCVSubmission_created tz clock w _ submit submitted _ hv1 hco1 hok
    have hco2 : getOrCreateCompany
        { (saveCVSubmission tz clock w submit).2 with tick := w.tick }
        check.domain check.linkedinUrl check.companyName
        = .ok (⟨w.companySeq, orNull submit.domain, orNull submit.linkedinUrl,
                jsOr submit.companyName (jsOr submit.domain submit.linkedinUrl)⟩,
              { (saveCVSubmission tz clock w submit).2 with tick := w.tick }) := by
      rw [hd, hl]
      apply getOrCreateCompany_found _ _ _ _ _ hid1
      show (saveCVSubmission tz clock w submit).2.companies.filter _ = _
      rw [hcomp]
      show (w.companies ++ _).filter _ = _
      rw [List.filter_append, hf]
      simp [companyMatches_created w.companySeq submit.domain submit.linkedinUrl _ hid1]
    rw [checkCVEligibility_decision tz clock _ _ check other _ hv2 hco2,
      checkCVEligibility_decision tz clock w _ check other _ hv2 hco0]
    refine ⟨?_, rfl⟩
    congr 2
    have hnone0 : getLatestCVSubmission w w.companySeq other = none :=
      getLatestCVSubmission_none_of_forall w w.companySeq other
        (fun s hs => Nat.ne_of_lt (hwf.2 s hs))
    have h2 : getLatestCVSubmission
        { (saveCVSubmission tz clock w submit).2 with tick := w.tick } w.companySeq other
        = getLatestCVSubmission w w.companySeq other :=
      getLatestCVSubmission_append_other row hsubs w.companySeq other (by rw [hrt]; exact hne)
    show getLatestCVSubmission _ w.companySeq other = getLatestCVSubmission _ w.companySeq other
    rw [h2, hnone0]
    exact (getLatestCVSubmission_none_of_forall _ w.companySeq other
      (fun s hs => Nat.ne_of_lt (hwf.2 s hs))).symm
  | x :: y :: rest =>
    -- two or more rows match: both the submit and each check insert a company
    have hmany : 2 ≤ (w.companies.filter
        (companyMatches submit.domain submit.linkedinUrl)).length := by
      rw [hf]; simp
    have hco1 := getOrCreateCompany_many w submit.domain submit.linkedinUrl
      submit.companyName hid1 hmany
    have hco0 := getOrCreateCompany_many w check.domain check.linkedinUrl
      check.companyName hv2.1 (by rw [hd, hl]; exact hmany)
    obtain ⟨row, hrc, _, hcomp, hseq, hsubs⟩ :=
      saveCVSubmission_created tz clock w _ submit submitted _ hv1 hco1 hok
    have hco2 := getOrCreateCompany_many
      { (saveCVSubmission tz clock w submit).2 with tick := w.tick }
      check.domain check.linkedinUrl check.companyName hv2.1 (by
        rw [hd, hl]
        show 2 ≤ ((saveCVSubmission tz clock w submit).2.companies.filter _).length
        rw [hcomp]
        show 2 ≤ ((w.companies ++ _).filter _).length
        rw [List.filter_append, List.length_append]
        omega)
    rw [checkCVEligibility_decision tz clock _ _ check other _ hv2 hco2,
      checkCVEligibility_decision tz clock w _ check other _ hv2 hco0]
    refine ⟨?_, rfl⟩
    congr 2
    have hnone0 : getLatestCVSubmission w w.companySeq other = none :=
      getLatestCVSubmission_none_of_forall w w.companySeq other
        (fun s hs => Nat.ne_of_lt (hwf.2 s hs))
    have hnone1 : getLatestCVSubmission w (w.companySeq + 1) other = none :=
      getLatestCVSubmission_none_of_forall w (w.companySeq + 1) other
        (fun s hs => Nat.ne_of_lt (Nat.lt_succ_of_lt (hwf.2 s hs)))
    have h2 : getLatestCVSubmission
        { (saveCVSubmission tz clock w submit).2 with tick := w.tick } (w.companySeq + 1) other
        = getLatestCVSubmission w (w.companySeq + 1) other :=
      getLatestCVSubmission_append_other_company row hsubs (w.companySeq + 1) other
        (by rw [hrc]; show w.companySeq ≠ w.companySeq + 1; omega)
    have e1 : getLatestCVSubmission
        (createCompany { (saveCVSubmission tz clock w submit).2 with tick := w.tick }
          (orNull check.domain) (orNull check.linkedinUrl)
          (jsOr check.companyName (jsOr check.domain check.linkedinUrl))).2
        (createCompany { (saveCVSubmission tz clock w submit).2 with tick := w.tick }
          (orNull check.domain) (orNull check.linkedinUrl)
          (jsOr check.companyName (jsOr check.domain check.linkedinUrl))).1.id other = none := by
      show getLatestCVSubmission _ (saveCVSubmission tz clock w submit).2.companySeq other = none
      rw [hseq]
      show getLatestCVSubmission _ (w.companySeq + 1) other = none
      rw [← hnone1, ← h2]
      exact getLatestCVSubmission_eq_of rfl _ _
    have e0 : getLatestCVSubmission
        (createCompany w (orNull check.domain) (orNull check.linkedinUrl)
          (jsOr check.companyName (jsOr check.domain check.linkedinUrl))).2
        (createCompany w (orNull check.domain) (orNull check.linkedinUrl)
          (jsOr check.companyName (jsOr check.domain check.linkedinUrl))).1.id other = none := by
      show getLatestCVSubmission _ w.companySeq other = none
      rw [← hnone0]
      exact getLatestCVSubmission_eq_of rfl _ _
    exact e1.trans e0.symm
/-- Instance: with an english submission 59 days old, a german submit is
answered 201 and the english check decides the same before and after. -/
theorem submit_keeps_other_type_witness :
    (checkCVEligibility utcZone frozenClock
        { (saveCVSubmission utcZone frozenClock (worldWithSubmission (march1 - 59 * 86400000))
            germanBody).2 with tick := (worldWithSubmission (march1 - 59 * 86400000)).tick }
        sampleBody).1.decision
      = (checkCVEligibility utcZone frozenClock (worldWithSubmission (march1 - 59 * 86400000))
          sampleBody).1.decision ∧
    ((checkCVEligibility utcZone frozenClock (worldWithSubmission (march1 - 59 * 86400000))
        sampleBody).1.decision).isSome = true :=
  submit_keeps_other_type utcZone frozenClock (worldWithSubmission (march1 - 59 * 86400000))
    germanBody sampleBody "german" "english"
    ⟨Or.inl (by decide), rfl, Or.inr rfl⟩ ⟨Or.inl (by decide), rfl, Or.inl rfl⟩ (by decide)
    rfl rfl
    (by
      constructor
      · intro c hc
        rw [show (worldWithSubmission (march1 - 59 * 86400000)).companies
          = [⟨1, some "acme.example", none, some "acme.example"⟩] from rfl,
          List.mem_singleton] at hc
        rw [hc]
        decide
      · intro s hs
        rw [show (worldWithSubmission (march1 - 59 * 86400000)).cv_submissions
          = [⟨1, 1, "english", march1 - 59 * 86400000, some "Engineer"⟩] from rfl,
          List.mem_singleton] at hs
        rw [hs]
        decide)
    (by decide)

/-! ## The listing computes the decision of check -/

/-- The latest submission the listing picks from the embedded rows of a
company is the one `getLatestCVSubmission` reads for the pair. -/
theorem latestOfType_embedded (w : World) (companyId : Nat) (cvType : String) :
    latestOfType (w.cv_submissions.filter (fun s => s.company_id == companyId)) cvType
      = getLatestCVSubmission w companyId cvType := by
  unfold latestOfType getLatestCVSubmission
  rw [single_take_one, List.filter_filter]
  congr 2
  apply List.filter_congr
  intro s _
  exact Bool.and_comm _ _

theorem getOrCreateCompany_of_find (w : World) (domain linkedinUrl companyName : Option String)
    (c : Company) (h : findCompany w domain linkedinUrl = .ok (some c)) :
    getOrCreateCompany w domain linkedinUrl companyName = .ok (c, w) := by
  unfold getOrCreateCompany
  rw [h]

theorem statusBlock_agrees (tz : TimeZone) (clock : Nat → Int) (now : Int)
    (hclock : ∀ i, clock i = now) (w : World) (c : Company) (cvType : String) (tick : Nat) :
    blockAgrees tz clock w c cvType
      (statusBlock tz clock tick (getLatestCVSubmission w c.id cvType)).1 := by
  cases hlatest : getLatestCVSubmission w c.id cvType with
  | none =>
    constructor
    · exact getLatestCVSubmission_eq_none hlatest
    · intro body hv hfind
      have hco := getOrCreateCompany_of_find w _ _ body.companyName c hfind
      rw [checkCVEligibility_decision tz clock w w body cvType c hv hco, hlatest]
      exact ⟨none, rfl⟩
  | some last =>
    obtain ⟨hmem, hcid, hty, hmax⟩ := getLatestCVSubmission_eq_some hlatest
    constructor
    · exact ⟨⟨last, hmem, hcid, hty, rfl⟩, hmax⟩
    · intro body hv hfind
      have hco := getOrCreateCompany_of_find w _ _ body.companyName c hfind
      rw [checkCVEligibility_decision tz clock w w body cvType c hv hco, hlatest]
      refine ⟨some ⟨last.id, last.submitted_at, last.job_title⟩, ?_⟩
      simp only [decisionOf, statusBlock, hclock]

theorem enhanceCompany_agrees (tz : TimeZone) (clock : Nat → Int) (now : Int)
    (hclock : ∀ i, clock i = now) (w : World) (c : Company) (tick : Nat) :
    entryAgrees tz clock w c
      (enhanceCompany tz clock tick
        (c, w.cv_submissions.filter (fun s => s.company_id == c.id))).1 := by
  refine ⟨rfl, rfl, rfl, rfl, rfl, ?_, ?_⟩
  · show blockAgrees tz clock w c "english"
      (statusBlock tz clock tick
        (latestOfType (w.cv_submissions.filter (fun s => s.company_id == c.id)) "english")).1
    rw [latestOfType_embedded]
    exact statusBlock_agrees tz clock now hclock w c "english" tick
  · show blockAgrees tz clock w c "german"
      (statusBlock tz clock _
        (latestOfType (w.cv_submissions.filter (fun s => s.company_id == c.id)) "german")).1
    simp only [latestOfType_embedded]
    exact statusBlock_agrees tz clock now hclock w c "german" _

theorem enhanceAll_agrees (tz : TimeZone) (clock : Nat → Int) (now : Int)
    (hclock : ∀ i, clock i = now) (w : World) (cs : List Company) :
    ∀ tick : Nat, List.Forall₂ (entryAgrees tz clock w) cs
      (enhanceAll tz clock tick
        (cs.map (fun c => (c, w.cv_submissions.filter (fun s => s.company_id == c.id))))).1 := by
  induction cs with
  | nil => intro tick; exact List.Forall₂.nil
  | cons c rest ih =>
    intro tick
    exact List.Forall₂.cons (enhanceCompany_agrees tz clock now hclock w c tick) (ih _)

/-- C17: the listing, read at one instant, has one entry per Company row
(latest row first), each with the row's identity, totalSubmissions equal to
the number of Submission rows of that company, and for `english` and for
`german` a block whose lastSubmittedAt is the greatest submitted_at of the pair
(null if none) and whose canSubmit and daysRemaining are the canGenerateCV and
daysRemaining that check returns for that company and type at that instant. -/
theorem getAllCompanies_agrees (tz : TimeZone) (clock : Nat → Int) (now : Int)
    (hclock : ∀ i, clock i = now) (w : World) :
    List.Forall₂ (entryAgrees tz clock w) w.companies.reverse
        (getAllCompanies tz clock w).1.companies ∧
      (getAllCompanies tz clock w).1.companies.length = w.companies.length ∧
      (getAllCompanies tz clock w).1.count = w.companies.length ∧
      (getAllCompanies tz clock w).2.companies = w.companies ∧
      (getAllCompanies tz clock w).2.cv_submissions = w.cv_submissions := by
  have h := enhanceAll_agrees tz clock now hclock w w.companies.reverse w.tick
  have hlen := h.length_eq
  rw [List.length_reverse] at hlen
  exact ⟨h, hlen.symm, hlen.symm, rfl, rfl⟩

/-- Instance: the listing of the store with one english submission 59 days
old, on a clock reading one instant throughout. -/
theorem getAllCompanies_agrees_witness :
    List.Forall₂ (entryAgrees utcZone frozenClock (worldWithSubmission (march1 - 59 * 86400000)))
        (worldWithSubmission (march1 - 59 * 86400000)).companies.reverse
        (getAllCompanies utcZone frozenClock
          (worldWithSubmission (march1 - 59 * 86400000))).1.companies ∧
      (getAllCompanies utcZone frozenClock
          (worldWithSubmission (march1 - 59 * 86400000))).1.companies.length
        = (worldWithSubmission (march1 - 59 * 86400000)).companies.length ∧
      (getAllCompanies utcZone frozenClock (worldWithSubmission (march1 - 59 * 86400000))).1.count
        = (worldWithSubmission (march1 - 59 * 86400000)).companies.length ∧
      (getAllCompanies utcZone frozenClock
          (worldWithSubmission (march1 - 59 * 86400000))).2.companies
        = (worldWithSubmission (march1 - 59 * 86400000)).companies ∧
      (getAllCompanies utcZone frozenClock
          (worldWithSubmission (march1 - 59 * 86400000))).2.cv_submissions
        = (worldWithSubmission (march1 - 59 * 86400000)).cv_submissions :=
  getAllCompanies_agrees utcZone frozenClock march1 (fun _ => rfl)
    (worldWithSubmission (march1 - 59 * 86400000))

/-! ## The clock within one check response -/

/-- C22 (as stated) fails: check reads the clock once in `canSubmitCV` and
again in `daysUntilNextSubmission`. With a submission made 60 days before
2026-03-01T12:00:00Z and a clock reading one millisecond before that instant
and then that instant, the response has canGenerateCV false and
daysRemaining 0. -/
theorem checkCVEligibility_skew_counterexample :
    (checkCVEligibility utcZone boundaryClock (worldWithSubmission (march1 - 60 * 86400000))
        sampleBody).1
      = .eligibility false ⟨1, some "acme.example", some "acme.example", none⟩ "english"
          (some ⟨1, march1 - 60 * 86400000, some "Engineer"⟩) (.num 0) (some march1) none
    ∧ false ≠ (JsNum.num 0).isZero := by
  constructor
  · decide
  · decide

/-- C22 (amended): within a single check response with a lastSubmission,
canGenerateCV is computed from one clock reading, daysRemaining from the next
one and nextAvailableDate from no reading; when the two readings give the same
whole-day age of the last submission (in particular when the clock does not
advance during the call) the response satisfies
canGenerateCV == (daysRemaining == 0). -/
theorem checkCVEligibility_same_day (tz : TimeZone) (clock : Nat → Int) (w w1 : World)
    (body : RequestBody) (cvType : String) (company : Company) (last : Submission)
    (hv : body.valid cvType)
    (hco : getOrCreateCompany w body.domain body.linkedinUrl body.companyName = .ok (company, w1))
    (hlast : getLatestCVSubmission w1 company.id cvType = some last)
    (hsame : daysBetween (.instant last.submitted_at) (.instant (clock (w.tick + 1)))
      = daysBetween (.instant last.submitted_at) (.instant (clock w.tick))) :
    ∃ (canGenerateCV : Bool) (daysRemaining : JsNum) (w2 : World),
      checkCVEligibility tz clock w body =
        (.eligibility canGenerateCV (companyView company) cvType
          (some ⟨last.id, last.submitted_at, last.job_title⟩) daysRemaining
          (some (getNextSubmissionDate tz (clock w.tick) (.instant last.submitted_at)
            COOLDOWN_DAYS)) none, w2) ∧
      canGenerateCV = canSubmitCV (clock w.tick) (.instant last.submitted_at) COOLDOWN_DAYS ∧
      daysRemaining
        = daysUntilNextSubmission (clock (w.tick + 1)) (.instant last.submitted_at)
            COOLDOWN_DAYS ∧
      canGenerateCV = daysRemaining.isZero := by
  obtain ⟨_, _, htick⟩ := getOrCreateCompany_frame hco
  have h := checkCVEligibility_some tz clock w w1 body cvType company last hv hco hlast
  rw [htick] at h
  refine ⟨_, _, _, h, rfl, rfl, ?_⟩
  rw [canSubmitCV_iff_daysRemaining_zero]
  unfold daysUntilNextSubmission
  simp only [hsame]

/-- Instance: a submission 59 days old under a clock reading one instant. -/
theorem checkCVEligibility_same_day_witness :
    ∃ (canGenerateCV : Bool) (daysRemaining : JsNum) (w2 : World),
      checkCVEligibility utcZone frozenClock (worldWithSubmission (march1 - 59 * 86400000))
          sampleBody =
        (.eligibility canGenerateCV
          (companyView ⟨1, some "acme.example", none, some "acme.example"⟩) "english"
          (some ⟨1, march1 - 59 * 86400000, some "Engineer"⟩) daysRemaining
          (some (getNextSubmissionDate utcZone (frozenClock 0)
            (.instant (march1 - 59 * 86400000)) COOLDOWN_DAYS)) none, w2) ∧
      canGenerateCV = canSubmitCV (frozenClock 0) (.instant (march1 - 59 * 86400000))
        COOLDOWN_DAYS ∧
      daysRemaining
        = daysUntilNextSubmission (frozenClock (0 + 1)) (.instant (march1 - 59 * 86400000))
            COOLDOWN_DAYS ∧
      canGenerateCV = daysRemaining.isZero :=
  checkCVEligibility_same_day utcZone frozenClock (worldWithSubmission (march1 - 59 * 86400000))
    (worldWithSubmission (march1 - 59 * 86400000)) sampleBody "english"
    ⟨1, some "acme.example", none, some "acme.example"⟩
    ⟨1, 1, "english", march1 - 59 * 86400000, some "Engineer"⟩
    ⟨Or.inl (by decide), rfl, Or.inl rfl⟩ rfl (by decide) rfl
/-! ## What check writes to the store -/

/-- The world check leaves behind: the world as it was, or the world after
the identity resolution with only the clock index moved. -/
theorem checkCVEligibility_world (tz : TimeZone) (clock : Nat → Int) (w : World)
    (body : RequestBody) :
    (checkCVEligibility tz clock w body).2 = w ∨
    ∃ (company : Company) (w1 : World) (n : Nat),
      getOrCreateCompany w body.domain body.linkedinUrl body.companyName = .ok (company, w1) ∧
      (checkCVEligibility tz clock w body).2 = { w1 with tick := n } := by
  by_cases h1 : (!truthy body.domain && !truthy body.linkedinUrl) = true
  · left; unfold checkCVEligibility; simp only [h1, if_true]
  · cases hcv : body.cvType with
    | none => left; unfold checkCVEligibility; simp [h1, hcv]
    | some cvType =>
      by_cases h2 : cvType ≠ "english" ∧ cvType ≠ "german"
      · left; unfold checkCVEligibility; simp [h1, hcv, h2]
      · cases hco : getOrCreateCompany w body.domain body.linkedinUrl body.companyName with
        | error e => left; unfold checkCVEligibility; simp [h1, hcv, h2, hco]
        | ok p =>
          obtain ⟨company, w1⟩ := p
          right
          have hv : body.valid cvType := by
            refine ⟨?_, hcv, ?_⟩
            · by_contra hne
              apply h1
              cases hd : truthy body.domain <;> cases hl : truthy body.linkedinUrl <;>
                simp_all
            · by_contra hne
              apply h2
              constructor <;> intro h <;> exact hne (by simp [h])
          cases hlatest : getLatestCVSubmission w1 company.id cvType with
          | none =>
            refine ⟨company, w1, w1.tick, rfl, ?_⟩
            rw [checkCVEligibility_none tz clock w w1 body cvType company hv hco hlatest]
          | some last =>
            refine ⟨company, w1, w1.tick + 1 + 1, rfl, ?_⟩
            rw [checkCVEligibility_some tz clock w w1 body cvType company last hv hco hlatest]

/-- C24: for an identity whose domain matches one existing row and whose
linkedinUrl matches another, check does not leave the store unchanged: the
lookup reports no row, check answers 200 for a company it has just inserted
and the table holds a third Company row. -/
theorem checkCVEligibility_split_identity :
    (splitIdentityWorld.companies.filter
        (companyMatches splitIdentityBody.domain splitIdentityBody.linkedinUrl)).length = 2
    ∧ (checkCVEligibility utcZone frozenClock splitIdentityWorld splitIdentityBody).1.status = 200
    ∧ (checkCVEligibility utcZone frozenClock splitIdentityWorld splitIdentityBody).2.companies
      = splitIdentityWorld.companies ++
          [⟨3, some "acme.example", some "linkedin.example/acme", some "acme.example"⟩]
    ∧ (checkCVEligibility utcZone frozenClock splitIdentityWorld splitIdentityBody).2.companies
      ≠ splitIdentityWorld.companies := by
  refine ⟨by decide, by decide, by decide, by decide⟩

/-- What check writes when the lookup finds at most one row. For a valid
request whose identity matches no Company row it inserts exactly one Company
row (domain and linkedin_url as given, or null when absent or empty; name the
companyName, else the domain, else the linkedinUrl) and changes no other row;
for an identity that matches exactly one row it leaves both tables as they
were, the name of that row included; and for no request at all does it create
a Submission row. -/
theorem checkCVEligibility_store_effect (tz : TimeZone) (clock : Nat → Int) (w : World)
    (body : RequestBody) (cvType : String) (hv : body.valid cvType) :
    (w.companies.filter (companyMatches body.domain body.linkedinUrl) = [] →
      (checkCVEligibility tz clock w body).2.companies = w.companies ++
        [⟨w.companySeq, orNull body.domain, orNull body.linkedinUrl,
          jsOr body.companyName (jsOr body.domain body.linkedinUrl)⟩]) ∧
    (∀ c, w.companies.filter (companyMatches body.domain body.linkedinUrl) = [c] →
      (checkCVEligibility tz clock w body).2.companies = w.companies ∧
      ∃ canGenerateCV lastSubmission daysRemaining nextAvailableDate message,
        (checkCVEligibility tz clock w body).1
          = .eligibility canGenerateCV (companyView c) cvType lastSubmission daysRemaining
              nextAvailableDate message) ∧
    (checkCVEligibility tz clock w body).2.cv_submissions = w.cv_submissions ∧
    (∀ anyBody : RequestBody,
      (checkCVEligibility tz clock w anyBody).2.cv_submissions = w.cv_submissions) := by
  have hsubs : ∀ anyBody : RequestBody,
      (checkCVEligibility tz clock w anyBody).2.cv_submissions = w.cv_submissions := by
    intro anyBody
    rcases checkCVEligibility_world tz clock w anyBody with h | ⟨company, w1, n, hco, h⟩
    · rw [h]
    · rw [h]
      exact (getOrCreateCompany_frame hco).1
  refine ⟨?_, ?_, hsubs body, hsubs⟩
  · intro hno
    have hco := getOrCreateCompany_no_match w body.domain body.linkedinUrl body.companyName
      hv.1 hno
    rcases checkCVEligibility_world tz clock w body with h | ⟨company, w1, n, hco1, h⟩
    · -- the handler resolved the identity, so it did not stop at validation
      exfalso
      cases hlatest : getLatestCVSubmission
          (createCompany w (orNull body.domain) (orNull body.linkedinUrl)
            (jsOr body.companyName (jsOr body.domain body.linkedinUrl))).2
          (createCompany w (orNull body.domain) (orNull body.linkedinUrl)
            (jsOr body.companyName (jsOr body.domain body.linkedinUrl))).1.id cvType with
      | none =>
        rw [checkCVEligibility_none tz clock w _ body cvType _ hv hco hlatest] at h
        have hc := congrArg World.companySeq h
        exact absurd hc (Nat.succ_ne_self _)
      | some last =>
        rw [checkCVEligibility_some tz clock w _ body cvType _ last hv hco hlatest] at h
        have hc := congrArg World.companySeq h
        exact absurd hc (Nat.succ_ne_self _)
    · rw [hco] at hco1
      cases hco1
      rw [h]
  · intro c hone
    have hco := getOrCreateCompany_found w body.domain body.linkedinUrl body.companyName c
      hv.1 hone
    cases hlatest : getLatestCVSubmission w c.id cvType with
    | none =>
      have h := checkCVEligibility_none tz clock w w body cvType c hv hco hlatest
      rw [h]
      exact ⟨rfl, _, _, _, _, _, rfl⟩
    | some last =>
      have h := checkCVEligibility_some tz clock w w body cvType c last hv hco hlatest
      rw [h]
      exact ⟨rfl, _, _, _, _, _, rfl⟩

/-- Instance: a check for a domain on the empty store. -/
theorem checkCVEligibility_store_effect_witness :
    (emptyWorld.companies.filter
        (companyMatches sampleBody.domain sampleBody.linkedinUrl) = [] →
      (checkCVEligibility utcZone frozenClock emptyWorld sampleBody).2.companies
        = emptyWorld.companies ++
          [⟨emptyWorld.companySeq, orNull sampleBody.domain, orNull sampleBody.linkedinUrl,
            jsOr sampleBody.companyName (jsOr sampleBody.domain sampleBody.linkedinUrl)⟩]) ∧
    (∀ c, emptyWorld.companies.filter
        (companyMatches sampleBody.domain sampleBody.linkedinUrl) = [c] →
      (checkCVEligibility utcZone frozenClock emptyWorld sampleBody).2.companies
        = emptyWorld.companies ∧
      ∃ canGenerateCV lastSubmission daysRemaining nextAvailableDate message,
        (checkCVEligibility utcZone frozenClock emptyWorld sampleBody).1
          = .eligibility canGenerateCV (companyView c) "english" lastSubmission daysRemaining
              nextAvailableDate message) ∧
    (checkCVEligibility utcZone frozenClock emptyWorld sampleBody).2.cv_submissions
      = emptyWorld.cv_submissions ∧
    (∀ anyBody : RequestBody,
      (checkCVEligibility utcZone frozenClock emptyWorld anyBody).2.cv_submissions
        = emptyWorld.cv_submissions) :=
  checkCVEligibility_store_effect utcZone frozenClock emptyWorld sampleBody "english"
    ⟨Or.inl (by decide), rfl, Or.inl rfl⟩

/-! ## The day-count gate and the next date -/

/-- C25 (as stated) fails on a host whose local offset changes inside the
window: in Central European time, for a submission of 2026-03-01T12:00:00Z and
a cooldown of 60 days, at the instant `getNextSubmissionDate` returns (60 days
less one hour later) `canSubmitCV` still answers false. -/
theorem canSubmitCV_at_next_date_counterexample :
    march1 ≤ getNextSubmissionDate berlinSpring2026 0 (.instant march1) 60
    ∧ getNextSubmissionDate berlinSpring2026 0 (.instant march1) 60
        = march1 + 60 * 86400000 - 3600000
    ∧ canSubmitCV (getNextSubmissionDate berlinSpring2026 0 (.instant march1) 60)
        (.instant march1) 60 = false := by
  refine ⟨by decide, by decide, by decide⟩

/-- C25 (amended): for every integer cooldownDays and every last-submission
instant last <= now, `canSubmitCV(last, cooldownDays)` at now is true exactly
when now >= last + cooldownDays x 86400000; on a host whose UTC offset at the
resulting local time equals its offset at last (a UTC or fixed-offset host)
that is exactly when now is at or after
`getNextSubmissionDate(last, cooldownDays)`; and once true it stays true at
every later instant. -/
theorem canSubmitCV_iff_elapsed (tz : TimeZone) (now last cooldownDays : Int)
    (hle : last ≤ now)
    (hoff : tz.LocalTZA (LocalTime tz last + cooldownDays * oneDay) false
      = tz.LocalTZA last true) :
    (canSubmitCV now (.instant last) cooldownDays = true
        ↔ last + cooldownDays * 86400000 ≤ now) ∧
    (canSubmitCV now (.instant last) cooldownDays = true
        ↔ getNextSubmissionDate tz now (.instant last) cooldownDays ≤ now) ∧
    (∀ later : Int, now ≤ later →
      canSubmitCV now (.instant last) cooldownDays = true →
      canSubmitCV later (.instant last) cooldownDays = true) := by
  have key : ∀ t : Int, last ≤ t →
      (canSubmitCV t (.instant last) cooldownDays = true
        ↔ last + cooldownDays * 86400000 ≤ t) := by
    intro t ht
    rw [canSubmitCV_instant, decide_eq_true_iff, abs_of_nonneg (by linarith), oneDay_eq,
      Int.le_ediv_iff_mul_le (by decide)]
    constructor <;> intro h <;> linarith
  have hnext : getNextSubmissionDate tz now (.instant last) cooldownDays
      = last + cooldownDays * 86400000 := by
    show setDate tz last (getDate tz last + cooldownDays) = _
    rw [setDate_getDate_add]
    unfold UTC
    rw [hoff]
    unfold LocalTime
    rw [oneDay_eq]
    ring
  refine ⟨key now hle, ?_, ?_⟩
  · rw [hnext]
    exact key now hle
  · intro later hlater hcan
    rw [key later (le_trans hle hlater)]
    exact le_trans ((key now hle).mp hcan) hlater

/-- Instance on a UTC host: 60 days and one millisecond after the submission. -/
theorem canSubmitCV_iff_elapsed_witness :
    (canSubmitCV (march1 + 60 * 86400000 + 1) (.instant march1) 60 = true
        ↔ march1 + 60 * 86400000 ≤ march1 + 60 * 86400000 + 1) ∧
    (canSubmitCV (march1 + 60 * 86400000 + 1) (.instant march1) 60 = true
        ↔ getNextSubmissionDate utcZone (march1 + 60 * 86400000 + 1) (.instant march1) 60
          ≤ march1 + 60 * 86400000 + 1) ∧
    (∀ later : Int, march1 + 60 * 86400000 + 1 ≤ later →
      canSubmitCV (march1 + 60 * 86400000 + 1) (.instant march1) 60 = true →
      canSubmitCV later (.instant march1) 60 = true) :=
  canSubmitCV_iff_elapsed utcZone (march1 + 60 * 86400000 + 1) march1 60 (by decide) rfl

/-! ## `daysBetween` in doubles -/

theorem bitLength_le (fuel : Nat) : ∀ (n k : Nat), n < 2 ^ k → bitLength fuel n ≤ k := by
  induction fuel with
  | zero => intro n k _; exact Nat.zero_le _
  | succ fuel ih =>
    intro n k hn
    unfold bitLength
    by_cases h0 : n = 0
    · simp [h0]
    · rw [if_neg h0]
      cases k with
      | zero =>
        rw [pow_zero] at hn
        omega
      | succ k =>
        have hhalf : n / 2 < 2 ^ k := by
          rw [pow_succ] at hn
          omega
        exact Nat.succ_le_succ (ih (n / 2) k hhalf)

/-- An integer of at most 53 binary digits is a double. -/
theorem roundToDouble_of_lt (n : Int) (h : n.natAbs < 2 ^ 53) : roundToDouble n = n := by
  have he : bitLength n.natAbs n.natAbs - 53 = 0 :=
    Nat.sub_eq_zero_of_le (bitLength_le _ _ _ h)
  unfold roundToDouble
  simp only [he, pow_zero, Nat.div_one, Nat.mod_one, Nat.mul_zero, Nat.mul_one]
  simp [Int.sign_mul_abs]

theorem roundToDouble_of_le (n : Int) (h : n.natAbs ≤ 2 ^ 53) : roundToDouble n = n := by
  rcases Nat.lt_or_ge n.natAbs (2 ^ 53) with hlt | hge
  · exact roundToDouble_of_lt n hlt
  · have heq : n.natAbs = 2 ^ 53 := le_antisymm h hge
    rcases Int.natAbs_eq n with hn | hn
    · rw [hn, heq]
      decide
    · rw [hn, heq]
      decide

theorem roundToDouble_neg (n : Int) : roundToDouble (-n) = -roundToDouble n := by
  unfold roundToDouble
  simp only [Int.natAbs_neg, Int.sign_neg, neg_mul]

theorem oneDay_toNat : oneDay.toNat = 86400000 := by decide

/-- Below `2 ^ 53` ms the rounded quotient by a day never reaches the next
integer: the quotient has at most 27 binary digits, so doubles near it are at
most `2 ^ -26` apart, less than the `1 / 86400000` by which a quotient that is
not an integer falls short of the next one. -/
theorem floorOfQuotient_of_le (d : Nat) (h : d ≤ 2 ^ 53) :
    floorOfQuotient d 86400000 = d / 86400000 := by
  unfold floorOfQuotient
  by_cases hr : d % 86400000 = 0
  · simp [hr]
  · have hq : d / 86400000 < 2 ^ 27 := by
      apply Nat.div_lt_of_lt_mul
      have : (2 : Nat) ^ 53 < 86400000 * 2 ^ 27 := by norm_num
      omega
    have hL : bitLength (d / 86400000) (d / 86400000) ≤ 27 := bitLength_le _ _ _ hq
    have hpow : 2 ^ 27 ≤ 2 ^ (53 - bitLength (d / 86400000) (d / 86400000) + 1) :=
      Nat.pow_le_pow_right (by norm_num) (by omega)
    have hgap : 1 ≤ 86400000 - d % 86400000 := by
      have := Nat.mod_lt d (show 0 < 86400000 by norm_num)
      omega
    have hbig : ¬ (86400000 - d % 86400000) *
        2 ^ (53 - bitLength (d / 86400000) (d / 86400000) + 1) ≤ 86400000 := by
      intro hle
      have h1 : 2 ^ 27 ≤ (86400000 - d % 86400000) *
          2 ^ (53 - bitLength (d / 86400000) (d / 86400000) + 1) :=
        le_trans hpow (Nat.le_mul_of_pos_left _ hgap)
      have h2 : (2 : Nat) ^ 27 = 134217728 := by norm_num
      omega
    simp only [hr, if_false, hbig]

theorem daysBetweenDouble_comm (a b : Int) : daysBetweenDouble a b = daysBetweenDouble b a := by
  unfold daysBetweenDouble
  have h : a - b = -(b - a) := by ring
  rw [h, roundToDouble_neg, Int.natAbs_neg]

/-- C6 (as stated) fails at the two ends of the range of `Date`: for
a = -8640000000000000 and b = 8639999999999999 the difference, which is odd
and larger than `2 ^ 53`, is rounded to 17280000000000000 before the division,
so `daysBetween(a, b)` is 200000000 while `floor(|b - a| / 86400000)` is
199999999. -/
theorem daysBetweenDouble_counterexample :
    daysBetweenDouble (-8640000000000000) 8639999999999999 = 200000000
    ∧ ⌊((|8639999999999999 - (-8640000000000000)| : Int) : ℚ) / (86400000 : ℚ)⌋ = 199999999
    ∧ daysBetweenDouble (-8640000000000000) 8639999999999999
        ≠ ⌊((|8639999999999999 - (-8640000000000000)| : Int) : ℚ) / (86400000 : ℚ)⌋ := by
  have h1 : daysBetweenDouble (-8640000000000000) 8639999999999999 = 200000000 := by decide
  have h2 : ⌊((|8639999999999999 - (-8640000000000000)| : Int) : ℚ) / (86400000 : ℚ)⌋
      = 199999999 := by
    have h := Rat.floor_intCast_div_natCast (|8639999999999999 - (-8640000000000000)|) 86400000
    have h3 : (|8639999999999999 - (-8640000000000000)| : Int) / ((86400000 : ℕ) : Int)
        = 199999999 := by decide
    rw [h3] at h
    simpa using h
  refine ⟨h1, h2, ?_⟩
  rw [h1, h2]
  decide

/-- C6 (amended): for every two instants `a` and `b` (integer UTC
milliseconds) at most `2 ^ 53` ms apart, `daysBetween(a, b)` as computed in
doubles equals `floor(|b - a| / 86400000)`, which is also the value of the
exact-integer `daysBetween`; it is a non-negative integer, and
`daysBetween(a, b) = daysBetween(b, a)`. -/
theorem daysBetweenDouble_floor_abs (a b : Int) (hclose : |b - a| ≤ 2 ^ 53) :
    daysBetweenDouble a b = ⌊((|b - a| : Int) : ℚ) / (86400000 : ℚ)⌋
      ∧ daysBetween (.instant a) (.instant b) = .num (daysBetweenDouble a b)
      ∧ (∃ n : Nat, daysBetweenDouble a b = (n : Int))
      ∧ daysBetweenDouble a b = daysBetweenDouble b a := by
  have hnat : (b - a).natAbs ≤ 2 ^ 53 := by
    have h := hclose
    rw [Int.abs_eq_natAbs] at h
    exact_mod_cast h
  have hval : daysBetweenDouble a b = |b - a| / oneDay := by
    unfold daysBetweenDouble
    simp only [roundToDouble_of_le (b - a) hnat, oneDay_toNat,
      floorOfQuotient_of_le (b - a).natAbs hnat]
    rw [Int.abs_eq_natAbs, oneDay_eq]
    norm_cast
  refine ⟨?_, ?_, ?_, daysBetweenDouble_comm a b⟩
  · rw [hval]
    have h := (daysBetween_floor_abs a b).1
    rw [daysBetween_instant] at h
    exact JsNum.num.inj h
  · rw [daysBetween_instant, hval]
  · exact ⟨floorOfQuotient (roundToDouble (b - a)).natAbs oneDay.toNat, rfl⟩

/-- Instance: two instants 60 days less one millisecond apart. -/
theorem daysBetweenDouble_floor_abs_witness :
    daysBetweenDouble march1 (march1 + 60 * 86400000 - 1)
        = ⌊((|march1 + 60 * 86400000 - 1 - march1| : Int) : ℚ) / (86400000 : ℚ)⌋
      ∧ daysBetween (.instant march1) (.instant (march1 + 60 * 86400000 - 1))
        = .num (daysBetweenDouble march1 (march1 + 60 * 86400000 - 1))
      ∧ (∃ n : Nat, daysBetweenDouble march1 (march1 + 60 * 86400000 - 1) = (n : Int))
      ∧ daysBetweenDouble march1 (march1 + 60 * 86400000 - 1)
        = daysBetweenDouble (march1 + 60 * 86400000 - 1) march1 :=
  daysBetweenDouble_floor_abs march1 (march1 + 60 * 86400000 - 1) (by decide)

/-! ## The route `POST /cv/check-and-submit` -/

/-- C21: the route `/check-and-submit` wraps the imported name
`checkAndSubmit`, which the controller does not export, so the import has
nothing to bind and no handler exists to behave as submit. Even when the
missing name is bound to `undefined` rather than refused by the module loader,
a valid request for a fresh pair is answered 500 by the queue middleware and
the store stays as it was, where submit answers the same request 201 and
inserts a Company and a Submission row. -/
theorem checkAndSubmit_not_exported :
    queuedRoutes.lookup "/check-and-submit" = some "checkAndSubmit"
    ∧ "checkAndSubmit" ∈ routesImports
    ∧ "checkAndSubmit" ∉ controllerExports
    ∧ routesImports.all (fun name => controllerExports.contains name) = false
    ∧ postQueued utcZone frozenClock "/check-and-submit" emptyWorld sampleBody
        = some (.serverError "handler is not a function", emptyWorld)
    ∧ postQueued utcZone frozenClock "/submit" emptyWorld sampleBody
        = some (saveCVSubmission utcZone frozenClock emptyWorld sampleBody)
    ∧ (saveCVSubmission utcZone frozenClock emptyWorld sampleBody).1.status = 201
    ∧ (saveCVSubmission utcZone frozenClock emptyWorld sampleBody).2.cv_submissions
        = [⟨1, 1, "english", march1, some "Engineer"⟩]
    ∧ postQueued utcZone frozenClock "/check-and-submit" emptyWorld sampleBody
        ≠ postQueued utcZone frozenClock "/submit" emptyWorld sampleBody := by
  have h5 : postQueued utcZone frozenClock "/check-and-submit" emptyWorld sampleBody
      = some (.serverError "handler is not a function", emptyWorld) := rfl
  have h6 : postQueued utcZone frozenClock "/submit" emptyWorld sampleBody
      = some (saveCVSubmission utcZone frozenClock emptyWorld sampleBody) := rfl
  refine ⟨rfl, by decide, by decide, by decide, h5, h6, by decide, by decide, ?_⟩
  rw [h5, h6]
  decide

end CvLookup
